import Mathlib

/-!
Verification of the torre-test dashboard's core logic against its
specification.  The development shallowly embeds:

* `src/lib/ai.ts` — `parseAIResponse` (direct JSON parse, greedy
  brace-span fallback, thrown errors) together with a model of the
  JavaScript `JSON.parse` / `JSON.stringify` pair it relies on, and the
  remote-work-experience computation of `generateCandidateFitPrompt`;
* `src/app/jobs/[id]/page.tsx` — `generateAnalysisPDF` with its helpers
  `addNewPageIfNeeded`, `addSectionTitle`, `addBulletList`,
  `addParagraph`, `addKeyValue`, the footer pass and the file name;
* `src/app/api/ai/route.ts` — the `POST /api/ai` handler.

Machine reals of the PDF layout are modelled as integers (every constant
and increment in the source is an integer; jsPDF's A4 page is taken at
its nominal 210×297 mm).  The text-measuring callback
`pdf.splitTextToSize` belongs to the external jsPDF library, so the
generator is parameterised by a `split` function; concrete runs use a
fixed-advance wrap (`wrapChars`, roughly 2 mm per character at the
source's 10 pt font).
-/

namespace Torre

/-! ### JSON values

`Json` models the values `JSON.parse` produces.  Numbers keep their
source lexeme (the claims under study never compare numeric magnitudes,
and the lexeme form avoids floating point). -/

inductive Json where
  | null : Json
  | bool (b : Bool) : Json
  | num (lexeme : String) : Json
  | str (s : String) : Json
  | arr (items : List Json) : Json
  | obj (pairs : List (String × Json)) : Json
deriving Repr

/-- JSON insignificant whitespace, as accepted by `JSON.parse`. -/
def jsonWs (c : Char) : Bool :=
  c = ' ' || c = '\t' || c = '\n' || c = '\r'

/-- Drop leading JSON whitespace. -/
def eatWs : List Char → List Char
  | [] => []
  | c :: r => if jsonWs c then eatWs r else c :: r

/-- Does the list start with the character `x`? -/
def headIs (x : Char) : List Char → Bool
  | [] => false
  | c :: _ => c = x

/-- Characters that may occur inside a JSON number token. -/
def numBodyChar (c : Char) : Bool :=
  c.isDigit || c = '-' || c = '+' || c = '.' || c = 'e' || c = 'E'

/-- Does the list start with a character that could extend a number token? -/
def headNum : List Char → Bool
  | [] => false
  | c :: _ => numBodyChar c

/-- Exponent-and-end portion of the JSON number grammar: either nothing,
or `e`/`E`, an optional sign, and one or more digits ending the token. -/
def numExpPart : List Char → Bool
  | [] => true
  | e :: r =>
    if e = 'e' ∨ e = 'E' then
      let r1 := if headIs '+' r ∨ headIs '-' r then r.tail else r
      match r1 with
      | [] => false
      | c :: r2 => c.isDigit && r2.all Char.isDigit
    else false

/-- Fraction-and-after portion of the JSON number grammar. -/
def numTailFrac (l : List Char) : Bool :=
  if headIs '.' l then
    match l.tail with
    | [] => false
    | c :: r2 => c.isDigit && numExpPart (r2.dropWhile Char.isDigit)
  else numExpPart l

/-- Full JSON number grammar (`-?(0|[1-9][0-9]*)(\.[0-9]+)?([eE][+-]?[0-9]+)?`),
matching exactly the tokens `JSON.parse` accepts. -/
def numShape (l : List Char) : Bool :=
  let l1 := if headIs '-' l then l.tail else l
  match l1 with
  | [] => false
  | c :: r =>
    if c = '0' then numTailFrac r
    else if c.isDigit then numTailFrac (r.dropWhile Char.isDigit)
    else false

/-- Value of one hexadecimal digit. -/
def hexNib (c : Char) : Option Nat :=
  if '0' ≤ c ∧ c ≤ '9' then some (c.toNat - 48)
  else if 'a' ≤ c ∧ c ≤ 'f' then some (c.toNat - 87)
  else if 'A' ≤ c ∧ c ≤ 'F' then some (c.toNat - 55)
  else none

/-- Decode a single-character JSON escape (`\u` handled separately). -/
def escDecode (e : Char) : Option Char :=
  if e = '"' then some '"'
  else if e = '\\' then some '\\'
  else if e = '/' then some '/'
  else if e = 'b' then some '\x08'
  else if e = 'f' then some '\x0c'
  else if e = 'n' then some '\n'
  else if e = 'r' then some '\r'
  else if e = 't' then some '\t'
  else none

/-- Body of a JSON string literal, after the opening quote: returns the
decoded characters and the input after the closing quote.  Fuel-driven;
one unit of fuel per decoded character. -/
def strBody : Nat → List Char → Option (List Char × List Char)
  | 0, _ => none
  | _ + 1, [] => none
  | f + 1, c :: r =>
    if c = '"' then some ([], r)
    else if c = '\\' then
      match r with
      | [] => none
      | e :: r2 =>
        if e = 'u' then
          match r2 with
          | h1 :: h2 :: h3 :: h4 :: r3 =>
            match hexNib h1, hexNib h2, hexNib h3, hexNib h4 with
            | some a, some b, some x, some d =>
              (strBody f r3).map
                (fun p => (Char.ofNat (((a * 16 + b) * 16 + x) * 16 + d) :: p.1, p.2))
            | _, _, _, _ => none
          | _ => none
        else
          match escDecode e with
          | some ch => (strBody f r2).map (fun p => (ch :: p.1, p.2))
          | none => none
    else if c.toNat < 32 then none
    else (strBody f r).map (fun p => (c :: p.1, p.2))

mutual

/-- Recursive-descent model of `JSON.parse`: one JSON value, with the
unconsumed remainder.  Fuel decreases on every recursive call. -/
def parseVal : Nat → List Char → Option (Json × List Char)
  | 0, _ => none
  | f + 1, input =>
    match eatWs input with
    | [] => none
    | c :: r =>
      if c = 'n' then
        if r.take 3 = ['u', 'l', 'l'] then some (.null, r.drop 3) else none
      else if c = 't' then
        if r.take 3 = ['r', 'u', 'e'] then some (.bool true, r.drop 3) else none
      else if c = 'f' then
        if r.take 4 = ['a', 'l', 's', 'e'] then some (.bool false, r.drop 4) else none
      else if c = '"' then
        (strBody f r).map (fun p => (.str (String.mk p.1), p.2))
      else if c = '[' then
        let r1 := eatWs r
        if headIs ']' r1 then some (.arr [], r1.tail)
        else (parseItems f r1).map (fun p => (.arr p.1, p.2))
      else if c = '{' then
        let r1 := eatWs r
        if headIs '}' r1 then some (.obj [], r1.tail)
        else (parsePairs f r1).map (fun p => (.obj p.1, p.2))
      else
        let tok := (c :: r).takeWhile numBodyChar
        if numShape tok then some (.num (String.mk tok), (c :: r).dropWhile numBodyChar)
        else none

/-- One or more comma-separated array items followed by `]`. -/
def parseItems : Nat → List Char → Option (List Json × List Char)
  | 0, _ => none
  | f + 1, input =>
    match parseVal f input with
    | none => none
    | some (v, r) =>
      let r1 := eatWs r
      if headIs ',' r1 then (parseItems f r1.tail).map (fun p => (v :: p.1, p.2))
      else if headIs ']' r1 then some ([v], r1.tail)
      else none

/-- One or more comma-separated `"key": value` members followed by `}`. -/
def parsePairs : Nat → List Char → Option (List (String × Json) × List Char)
  | 0, _ => none
  | f + 1, input =>
    match eatWs input with
    | [] => none
    | c :: r =>
      if c = '"' then
        match strBody f r with
        | none => none
        | some (k, r1) =>
          let r2 := eatWs r1
          if headIs ':' r2 then
            match parseVal f r2.tail with
            | none => none
            | some (v, r3) =>
              let r4 := eatWs r3
              if headIs ',' r4 then
                (parsePairs f r4.tail).map (fun p => ((String.mk k, v) :: p.1, p.2))
              else if headIs '}' r4 then some ([(String.mk k, v)], r4.tail)
              else none
          else none
      else none

end

/-- Model of `JSON.parse`: parse one value and require only whitespace
after it; `none` models a thrown `SyntaxError`. -/
def jsonParse (s : String) : Option Json :=
  match parseVal (s.data.length + 2) s.data with
  | some (v, r) => if eatWs r = [] then some v else none
  | none => none

/-- Lowercase hexadecimal digit for `n < 16`. -/
def nib (n : Nat) : Char :=
  if n < 10 then Char.ofNat (48 + n) else Char.ofNat (87 + n)

/-- JSON escape of one character, as `JSON.stringify` emits it. -/
def escChar (c : Char) : List Char :=
  if c = '"' then ['\\', '"']
  else if c = '\\' then ['\\', '\\']
  else if c = '\x08' then ['\\', 'b']
  else if c = '\x0c' then ['\\', 'f']
  else if c = '\n' then ['\\', 'n']
  else if c = '\r' then ['\\', 'r']
  else if c = '\t' then ['\\', 't']
  else if c.toNat < 32 then ['\\', 'u', '0', '0', nib (c.toNat / 16), nib (c.toNat % 16)]
  else [c]

/-- JSON escape of a character sequence. -/
def escChars : List Char → List Char
  | [] => []
  | c :: r => escChar c ++ escChars r

mutual

/-- Model of `JSON.stringify` (compact form, no added whitespace),
producing the character list of the serialization. -/
def strChars : Json → List Char
  | .null => "null".data
  | .bool true => "true".data
  | .bool false => "false".data
  | .num lexeme => lexeme.data
  | .str s => '"' :: (escChars s.data ++ ['"'])
  | .arr [] => ['[', ']']
  | .arr (x :: xs) => '[' :: (strChars x ++ (moreItems xs ++ [']']))
  | .obj [] => ['{', '}']
  | .obj (p :: ps) => '{' :: (pairChars p ++ (morePairs ps ++ ['}']))

/-- Second and later array items, each preceded by a comma. -/
def moreItems : List Json → List Char
  | [] => []
  | x :: xs => ',' :: (strChars x ++ moreItems xs)

/-- One serialized object member, `"key":value`. -/
def pairChars : String × Json → List Char
  | (k, v) => '"' :: (escChars k.data ++ ('"' :: ':' :: strChars v))

/-- Second and later object members, each preceded by a comma. -/
def morePairs : List (String × Json) → List Char
  | [] => []
  | p :: ps => ',' :: (pairChars p ++ morePairs ps)

end

/-- `JSON.stringify` as a string. -/
def stringify (v : Json) : String := String.mk (strChars v)

mutual

/-- Values in the image of JavaScript's `JSON.parse`: every number
lexeme is a well-formed JSON number token.  (The `Json` type is broader,
since it stores numbers as raw lexemes.) -/
def validJson : Json → Bool
  | .num lexeme => numShape lexeme.data && lexeme.data.all numBodyChar
  | .arr xs => validItems xs
  | .obj ps => validPairs ps
  | _ => true

/-- `validJson` on every item of a list. -/
def validItems : List Json → Bool
  | [] => true
  | x :: xs => validJson x && validItems xs

/-- `validJson` on every member value of an object. -/
def validPairs : List (String × Json) → Bool
  | (_, w) :: rest => validJson w && validPairs rest
  | [] => true

end

mutual

/-- Fuel sufficient for `parseVal` to re-parse a serialized value. -/
def weight : Json → Nat
  | .str s => s.length + 2
  | .arr xs => 1 + itemsWeight xs
  | .obj ps => 1 + pairsWeight ps
  | _ => 1

/-- Fuel sufficient for `parseItems` on a serialized item list. -/
def itemsWeight : List Json → Nat
  | [] => 0
  | x :: xs => 1 + weight x + itemsWeight xs

/-- Fuel sufficient for `parsePairs` on a serialized member list. -/
def pairsWeight : List (String × Json) → Nat
  | [] => 0
  | (k, v) :: ps => 2 + k.length + weight v + pairsWeight ps

end

/-- Constraint on the text following a serialized value for re-parsing
to stop at its end: only a bare number token can be extended by what
follows it. -/
def restOk : Json → List Char → Prop
  | .num _, rest => headNum rest = false
  | _, _ => True

/-- Index of the first occurrence of `x`, if any. -/
def idxOf? (x : Char) : List Char → Option Nat
  | [] => none
  | c :: r => if c = x then some 0 else (idxOf? x r).map (· + 1)

/-- Index of the first `{` in a character list. -/
def firstBrace (l : List Char) : Option Nat := idxOf? '{' l

/-- Index of the last `}` in a character list. -/
def lastClose (l : List Char) : Option Nat :=
  (idxOf? '}' l.reverse).map (fun k => l.length - 1 - k)

/-- Model of `text.match(/\x7b[\s\S]*\x7d/)`: the greedy span from the
first `{` to the last `}`, when the last `}` comes after the first `{`;
otherwise no match. -/
def braceSpan (s : String) : Option String :=
  match firstBrace s.data, lastClose s.data with
  | some i, some j =>
    if i < j then some (String.mk ((s.data.drop i).take (j - i + 1))) else none
  | _, _ => none

/-- Failure outcomes of `parseAIResponse`: the explicitly thrown
`Error("Failed to parse AI response")`, or the `SyntaxError` that
`JSON.parse` raises on the matched brace span (which the source does
not catch). -/
inductive AIParseError where
  | thrownError (msg : String) : AIParseError
  | syntaxError : AIParseError
deriving DecidableEq, Repr

/-- Embedding of `parseAIResponse` (src/lib/ai.ts): try `JSON.parse` on
the whole text; on failure match the greedy brace span and `JSON.parse`
it; if no span matches, throw `Error("Failed to parse AI response")`. -/
def parseAIResponse (text : String) : Except AIParseError Json :=
  match jsonParse text with
  | some v => .ok v
  | none =>
    match braceSpan text with
    | some span =>
      match jsonParse span with
      | some v => .ok v
      | none => .error .syntaxError
    | none => .error (.thrownError "Failed to parse AI response")

/-! ### PDF generator model (`generateAnalysisPDF`, src/app/jobs/[id]/page.tsx)

The jsPDF handle is modelled as `GenState`: the running cursor `y`, the
current page number (jsPDF's `internal.pages.length - 1` equals `page`,
since pages are only ever added one at a time), and the ordered list of
draw calls, each recorded as a `Block` with the page and `y` position it
was drawn at.  Coordinates are integers (every constant and increment in
the source is an integer; A4 taken at 210×297 mm). -/

def pageWidth : Int := 210

def pageHeight : Int := 297

def margin : Int := 20

def contentWidth : Int := pageWidth - 2 * margin

/-- One recorded draw call of the generator, by kind. -/
inductive BKind where
  | headerBg : BKind
  | headerTitle : BKind
  | headerDate : BKind
  | candBg : BKind
  | candName (text : String) : BKind
  | candHeadline (text : String) : BKind
  | posLabel : BKind
  | posValue (text : String) : BKind
  | compLabel : BKind
  | compValue (text : String) : BKind
  | scoreBg : BKind
  | scoreText (text : String) : BKind
  | sectionTitle (title : String) : BKind
  | paragraph (lines : List String) : BKind
  | bullet (lines : List String) : BKind
  | subheading (text : String) : BKind
  | keyValue (labelLines valueLines : List String) : BKind
  | footer (text : String) : BKind
deriving DecidableEq, Repr

/-- A draw call: its kind, the page it lands on, and its `y` start. -/
structure Block where
  kind : BKind
  page : Nat
  y : Int
deriving DecidableEq, Repr

/-- The mutable drawing state owned by `generateAnalysisPDF`. -/
structure GenState where
  y : Int
  page : Nat
  blocks : List Block
deriving Repr

/-- The external `pdf.splitTextToSize(text, width)` callback: jsPDF's
font-metric text wrap, kept abstract. -/
abbrev Split := String → Int → List String

/-- Record a draw call at an explicit `y` on the current page. -/
def emitAt (k : BKind) (yv : Int) (s : GenState) : GenState :=
  { s with blocks := s.blocks ++ [⟨k, s.page, yv⟩] }

/-- `addNewPageIfNeeded(requiredHeight)`: page-break when the block
would cross the bottom margin. -/
def addNewPageIfNeeded (required : Int) (s : GenState) : GenState :=
  if s.y + required > pageHeight - margin then
    { s with page := s.page + 1, y := margin }
  else s

/-- `addSectionTitle(title)`. -/
def addSectionTitle (t : String) (s : GenState) : GenState :=
  let s := addNewPageIfNeeded 20 s
  let s := emitAt (.sectionTitle t) s.y s
  { s with y := s.y + 8 }

/-- One iteration of `addBulletList`'s `items.forEach` body. -/
def addBulletItem (split : Split) (item : String) (s : GenState) : GenState :=
  let lines := split item (contentWidth - 10)
  let blockHeight : Int := lines.length * 5 + 3
  let s := addNewPageIfNeeded blockHeight s
  let s := emitAt (.bullet lines) s.y s
  { s with y := s.y + blockHeight }

/-- `addBulletList(items, bulletColor)` (colors not modelled). -/
def addBulletList (split : Split) (items : List String) (s : GenState) : GenState :=
  let s := items.foldl (fun st it => addBulletItem split it st) s
  { s with y := s.y + 3 }

/-- `addParagraph(text)`. -/
def addParagraph (split : Split) (t : String) (s : GenState) : GenState :=
  let lines := split t contentWidth
  let blockHeight : Int := lines.length * 5 + 5
  let s := addNewPageIfNeeded blockHeight s
  let s := emitAt (.paragraph lines) s.y s
  { s with y := s.y + blockHeight }

/-- `addKeyValue(label, value)`: note the source performs no
`addNewPageIfNeeded` call here. -/
def addKeyValue (split : Split) (label value : String) (s : GenState) : GenState :=
  let labelLines := split (label ++ ":") 50
  let valueLines := split value (contentWidth - 55)
  let s := emitAt (.keyValue labelLines valueLines) s.y s
  { s with y := s.y + ((max labelLines.length valueLines.length : Nat) : Int) * 5 + 3 }

/-- `careerTrajectory` analysis section value. -/
structure CareerTrajectoryV where
  summary : Option String
  growthIndicators : Option (List String)
  alignmentWithRole : Option String

/-- `locationAndWorkStyle` analysis section value. -/
structure LocationAndWorkStyleV where
  locationCompatibility : Option String
  remoteWorkAlignment : Option String
  commitmentLevelMatch : Option String
  potentialConcerns : Option (List String)

/-- `professionalCredibility` analysis section value. -/
structure ProfessionalCredibilityV where
  profileQuality : Option String
  professionalPresence : Option (List String)
  credibilityIndicators : Option (List String)

/-- The analysis object as the generator reads it: every field may be
absent at runtime (`JSON.parse` output is not schema-checked), so each
is optional here. -/
structure AnalysisV where
  jobSummary : Option String
  overallFitScore : Option String
  matchingSkillsAndStrengths : Option (List String)
  areasForDevelopment : Option (List String)
  recommendations : Option (List String)
  careerTrajectory : Option CareerTrajectoryV
  locationAndWorkStyle : Option LocationAndWorkStyleV
  professionalCredibility : Option ProfessionalCredibilityV

/-- The candidate fields the generator reads. -/
structure PersonV where
  name : Option String
  professionalHeadline : Option String

/-- The genome fields the generator reads. -/
structure GenomeV where
  person : PersonV

/-- The job fields the generator reads (`organizations?.[0]?.name`
collapsed to its result). -/
structure JobV where
  objective : String
  firstOrgName : Option String

/-- JavaScript truthiness of an optional string field. -/
def truthyStr : Option String → Bool
  | none => false
  | some s => s ≠ ""

/-- The source's `field && field.length > 0` guard on list sections. -/
def nonEmptyList : Option (List String) → Bool
  | none => false
  | some l => decide (0 < l.length)

/-- Header, candidate box and job identity lines (drawn unconditionally). -/
def headerPart (genome : GenomeV) (job : JobV) (s : GenState) : GenState :=
  let s := emitAt .headerBg 0 s
  let s := emitAt .headerTitle 20 s
  let s := emitAt .headerDate 30 s
  let s := { s with y := 55 }
  let s := emitAt .candBg (s.y - 5) s
  let s := emitAt (.candName (genome.person.name.getD "Unknown Candidate")) (s.y + 5) s
  let s := emitAt (.candHeadline (genome.person.professionalHeadline.getD "")) (s.y + 12) s
  let s := { s with y := s.y + 30 }
  let s := emitAt .posLabel s.y s
  let s := emitAt (.posValue job.objective) s.y s
  let s := { s with y := s.y + 6 }
  let s := emitAt .compLabel s.y s
  let s := emitAt (.compValue (job.firstOrgName.getD "Unknown")) s.y s
  { s with y := s.y + 12 }

/-- The overall-fit-score badge (only when the score is truthy). -/
def scorePart (analysis : AnalysisV) (s : GenState) : GenState :=
  if truthyStr analysis.overallFitScore then
    let s := emitAt .scoreBg (s.y - 5) s
    let s := emitAt (.scoreText ("Overall Fit Score: " ++ analysis.overallFitScore.getD ""))
      (s.y + 5) s
    { s with y := s.y + 25 }
  else s

/-- The job-summary section (only when `jobSummary` is truthy). -/
def summaryPart (split : Split) (analysis : AnalysisV) (s : GenState) : GenState :=
  if truthyStr analysis.jobSummary then
    let s := addSectionTitle "Job Summary" s
    let s := addParagraph split (analysis.jobSummary.getD "") s
    { s with y := s.y + 5 }
  else s

/-- One guarded title-plus-bullet-list section (the three main lists). -/
def listSection (split : Split) (title : String) (field : Option (List String))
    (s : GenState) : GenState :=
  if nonEmptyList field then
    let s := addSectionTitle title s
    addBulletList split (field.getD []) s
  else s

/-- The career-trajectory section. -/
def trajectoryPart (split : Split) (analysis : AnalysisV) (s : GenState) : GenState :=
  match analysis.careerTrajectory with
  | none => s
  | some ct =>
    let s := addSectionTitle "Career Trajectory & Growth" s
    let s := if truthyStr ct.summary then addParagraph split (ct.summary.getD "") s else s
    let s :=
      if nonEmptyList ct.growthIndicators then
        let s := addNewPageIfNeeded 10 s
        let s := emitAt (.subheading "Growth Indicators:") s.y s
        let s := { s with y := s.y + 6 }
        addBulletList split (ct.growthIndicators.getD []) s
      else s
    if truthyStr ct.alignmentWithRole then
      let s := addNewPageIfNeeded 15 s
      addKeyValue split "Role Alignment" (ct.alignmentWithRole.getD "") s
    else s

/-- The location-and-work-style section. -/
def locationPart (split : Split) (analysis : AnalysisV) (s : GenState) : GenState :=
  match analysis.locationAndWorkStyle with
  | none => s
  | some lw =>
    let s := addSectionTitle "Location & Work Style" s
    let s :=
      if truthyStr lw.locationCompatibility then
        addKeyValue split "Location" (lw.locationCompatibility.getD "") s
      else s
    let s :=
      if truthyStr lw.remoteWorkAlignment then
        addKeyValue split "Remote Work" (lw.remoteWorkAlignment.getD "") s
      else s
    let s :=
      if truthyStr lw.commitmentLevelMatch then
        addKeyValue split "Commitment" (lw.commitmentLevelMatch.getD "") s
      else s
    if nonEmptyList lw.potentialConcerns then
      let s := { s with y := s.y + 3 }
      let s := addNewPageIfNeeded 10 s
      let s := emitAt (.subheading "Potential Concerns:") s.y s
      let s := { s with y := s.y + 6 }
      addBulletList split (lw.potentialConcerns.getD []) s
    else s

/-- The professional-credibility section. -/
def credibilityPart (split : Split) (analysis : AnalysisV) (s : GenState) : GenState :=
  match analysis.professionalCredibility with
  | none => s
  | some pc =>
    let s := addSectionTitle "Professional Credibility" s
    let s :=
      if truthyStr pc.profileQuality then
        addKeyValue split "Profile Quality" (pc.profileQuality.getD "") s
      else s
    let s :=
      if nonEmptyList pc.professionalPresence then
        let s := { s with y := s.y + 3 }
        let s := addNewPageIfNeeded 10 s
        let s := emitAt (.subheading "Professional Presence:") s.y s
        let s := { s with y := s.y + 6 }
        addBulletList split (pc.professionalPresence.getD []) s
      else s
    if nonEmptyList pc.credibilityIndicators then
      let s := { s with y := s.y + 3 }
      let s := addNewPageIfNeeded 10 s
      let s := emitAt (.subheading "Credibility Indicators:") s.y s
      let s := { s with y := s.y + 6 }
      addBulletList split (pc.credibilityIndicators.getD []) s
    else s

/-- The content pass of `generateAnalysisPDF`: every section in source
order, starting from `y = margin` on page 1. -/
def contentPass (split : Split) (analysis : AnalysisV) (genome : GenomeV) (job : JobV) :
    GenState :=
  let s : GenState := { y := margin, page := 1, blocks := [] }
  let s := headerPart genome job s
  let s := scorePart analysis s
  let s := summaryPart split analysis s
  let s := listSection split "Matching Skills & Strengths" analysis.matchingSkillsAndStrengths s
  let s := listSection split "Areas for Development" analysis.areasForDevelopment s
  let s := listSection split "Recommendations" analysis.recommendations s
  let s := trajectoryPart split analysis s
  let s := locationPart split analysis s
  credibilityPart split analysis s

/-- The text stamped on page `i` of `total` by the footer loop. -/
def footerText (i total : Nat) : String :=
  s!"Page {i} of {total} • Torre Candidate Fit Analysis"

/-- The footer pass: one centered footer per page, at `pageHeight - 10`. -/
def footerBlocks (total : Nat) : List Block :=
  (List.range total).map (fun k => ⟨.footer (footerText (k + 1) total), k + 1, pageHeight - 10⟩)

/-- JavaScript `\s` (the whitespace class of the filename's
`replace(/\s+/g, "_")`), on the characters that occur in practice. -/
def isWsJS (c : Char) : Bool :=
  c = ' ' || c = '\t' || c = '\n' || c = '\r' || c = '\x0b' || c = '\x0c' || c = ' '

/-- Replace every whitespace run by a single underscore (`inRun` tracks
whether the previous character was whitespace). -/
def collapseRuns (inRun : Bool) : List Char → List Char
  | [] => []
  | c :: r =>
    if isWsJS c then
      if inRun then collapseRuns true r else '_' :: collapseRuns true r
    else c :: collapseRuns false r

/-- `s.replace(/\s+/g, "_")`. -/
def collapseWs (s : String) : String := String.mk (collapseRuns false s.data)

/-- `s.substring(0, n)`. -/
def takePrefix (n : Nat) (s : String) : String := String.mk (s.data.take n)

/-- The export filename:
`Candidate_Fit_<name with ws collapsed, or "Unknown">_<objective with ws
collapsed, truncated to 30 chars>.pdf`. -/
def pdfFileName (genome : GenomeV) (job : JobV) : String :=
  let namePart :=
    match genome.person.name with
    | some n => if collapseWs n = "" then "Unknown" else collapseWs n
    | none => "Unknown"
  "Candidate_Fit_" ++ namePart ++ "_" ++ takePrefix 30 (collapseWs job.objective) ++ ".pdf"

/-- `generateAnalysisPDF`: content pass, then the footer pass over the
`totalPages = pdf.internal.pages.length - 1` pages produced, and the
saved file's name. -/
def generateAnalysisPDF (split : Split) (analysis : AnalysisV) (genome : GenomeV)
    (job : JobV) : GenState × String :=
  let s := contentPass split analysis genome job
  let total := s.page
  ({ s with blocks := s.blocks ++ footerBlocks total }, pdfFileName genome job)

/-- Greedy chunks of at most `k` characters, fuel-driven (one chunk per
unit of fuel; the caller passes the list's length, which always
suffices for positive `k`). -/
def chunkAux (k : Nat) : Nat → List Char → List (List Char)
  | _, [] => []
  | 0, l => [l]
  | f + 1, c :: r => (c :: r.take (k - 1)) :: chunkAux k f (r.drop (k - 1))

/-- Greedy chunks of at most `k` characters (`k` is forced positive by
the caller). -/
def chunkChars (k : Nat) (l : List Char) : List (List Char) := chunkAux k l.length l

/-- A concrete stand-in for jsPDF's `splitTextToSize` used on concrete
runs: fixed-advance wrapping at 2 mm per character (approximately the
average 10 pt Helvetica advance). -/
def wrapChars : Split := fun text width =>
  (chunkChars (max 1 (width / 2).toNat) text.data).map String.mk

/-! ### API route model (`POST /api/ai`, src/app/api/ai/route.ts) -/

/-- A JavaScript exception: an `Error` instance carrying its `message`,
or any thrown non-`Error` value. -/
inductive Thrown where
  | errObj (msg : String) : Thrown
  | nonError : Thrown
deriving DecidableEq, Repr

/-- The fields of a successful `generateText` result that the route
forwards. -/
structure GenSuccess where
  text : String
  finishReason : String
deriving DecidableEq, Repr

/-- The route's reply: HTTP status plus the `error` or `text` payload
field. -/
structure RouteResponse where
  status : Nat
  errorMsg : Option String
  text : Option String
deriving DecidableEq, Repr

/-- Is `sub` a contiguous substring (`String.prototype.includes`)? -/
def containsStr (s sub : String) : Bool := decide (sub.data <:+: s.data)

/-- Zero test on a JSON number lexeme: the mantissa (everything before
any exponent marker) has no nonzero digit. -/
def numZeroLex (l : List Char) : Bool :=
  (l.takeWhile (fun c => c ≠ 'e' ∧ c ≠ 'E')).all (fun c => ¬('1' ≤ c ∧ c ≤ '9'))

/-- JavaScript truthiness of a JSON value. -/
def jsTruthy : Json → Bool
  | .null => false
  | .bool b => b
  | .str s => s ≠ ""
  | .num lexeme => !numZeroLex lexeme.data
  | .arr _ => true
  | .obj _ => true

/-- JavaScript property lookup on a parsed JSON value (later duplicate
keys shadow earlier ones, as in `JSON.parse`). -/
def getField (v : Json) (key : String) : Option Json :=
  match v with
  | .obj ps => (ps.reverse.find? (fun p => p.1 = key)).map (·.2)
  | _ => none

/-- The distinguished credential-missing message of the route. -/
def apiKeyMissingMsg : String :=
  "Google API key not configured. Set GOOGLE_GENERATIVE_AI_API_KEY environment variable."

/-- The route's `catch` block: Error messages mentioning "API key" are
replaced by the configuration message; other Error messages are
forwarded; non-Error throwables get the generic message. -/
def handleCatch : Thrown → RouteResponse
  | .errObj msg =>
    if containsStr msg "API key" then ⟨500, some apiKeyMissingMsg, none⟩
    else ⟨500, some msg, none⟩
  | .nonError => ⟨500, some "An unexpected error occurred", none⟩

/-- `modelId || process.env.GOOGLE_MODEL || "gemini-2.5-flash-lite"` for
string-valued `model` fields (the only kind that names a model). -/
def resolveModel (modelField : Option Json) (envModel : Option String) : String :=
  let envOr := match envModel with
    | some e => if e = "" then "gemini-2.5-flash-lite" else e
    | none => "gemini-2.5-flash-lite"
  match modelField with
  | some (.str m) => if m = "" then envOr else m
  | _ => envOr

/-- Embedding of the `POST /api/ai` handler.  `body` is the outcome of
`request.json()`; `upstream` is the awaited `generateText` call, a
function of the resolved model name.  The boolean reports whether the
upstream call was reached. -/
def POST (body : Except Thrown Json) (envModel : Option String)
    (upstream : String → Except Thrown GenSuccess) : RouteResponse × Bool :=
  match body with
  | .error t => (handleCatch t, false)
  | .ok b =>
    match b with
    | .null =>
      (handleCatch (.errObj "Cannot destructure property 'prompt' of 'body' as it is null."),
        false)
    | _ =>
      let prompt := getField b "prompt"
      if (prompt.map jsTruthy).getD false = false then
        (⟨400, some "Prompt is required", none⟩, false)
      else
        match upstream (resolveModel (getField b "model") envModel) with
        | .ok g => (⟨200, none, some g.text⟩, true)
        | .error t => (handleCatch t, true)

/-! ### Remote-work-experience computation
(`generateCandidateFitPrompt`, src/lib/ai.ts lines 183–186 and 240) -/

/-- A genome career entry as the computation reads it (`j.remote`
truthiness; an absent field behaves as `false`). -/
structure GenomeJob where
  remote : Bool
deriving DecidableEq, Repr

/-- `genome.jobs?.filter(j => j.remote).length || 0`. -/
def remoteJobsCount (jobs : Option (List GenomeJob)) : Nat :=
  match jobs with
  | some l => (l.filter (·.remote)).length
  | none => 0

/-- `genome.jobs?.length || 0`. -/
def totalJobsCount (jobs : Option (List GenomeJob)) : Nat :=
  match jobs with
  | some l => l.length
  | none => 0

/-- JavaScript `Math.round`: half-up, i.e. `⌊x + 1/2⌋`. -/
def jsRound (q : ℚ) : Int := ⌊q + 1 / 2⌋

/-- `totalJobsCount > 0 ? Math.round((remoteJobsCount / totalJobsCount) * 100) : 0`. -/
def remoteExperiencePercent (jobs : Option (List GenomeJob)) : Int :=
  if 0 < totalJobsCount jobs then
    jsRound ((remoteJobsCount jobs : ℚ) / (totalJobsCount jobs : ℚ) * 100)
  else 0

/-- The prompt line built at src/lib/ai.ts line 240. -/
def remoteExperienceLine (jobs : Option (List GenomeJob)) : String :=
  s!"**Remote Work Experience:** {remoteJobsCount jobs} out of {totalJobsCount jobs} positions ({remoteExperiencePercent jobs}%)"

/-! ### Block classification and sample inputs for concrete runs -/

/-- The three add operations that call `addNewPageIfNeeded` before
drawing (section titles, paragraphs, bullet items). -/
def checkedKind : BKind → Bool
  | .sectionTitle _ => true
  | .paragraph _ => true
  | .bullet _ => true
  | _ => false

/-- Key/value blocks (`addKeyValue` draws these without a check). -/
def isKeyValue : BKind → Bool
  | .keyValue _ _ => true
  | _ => false

/-- Footer blocks (stamped by the footer pass). -/
def isFooter : BKind → Bool
  | .footer _ => true
  | _ => false

/-- The draw kinds of a state's blocks, in draw order. -/
def kindsOf (s : GenState) : List BKind := s.blocks.map (·.kind)

/-- Bound satisfied by every block of a checked add operation: it
starts at or below the top margin line and above the bottom margin. -/
def blockOK (b : Block) : Prop :=
  checkedKind b.kind = true → margin ≤ b.y ∧ b.y ≤ pageHeight - margin

/-- Invariant of the content pass: the cursor is below the top margin,
every checked block drawn so far is within the margins, and no footer
has been drawn. -/
def contentOK (s : GenState) : Prop :=
  margin ≤ s.y ∧ ∀ b ∈ s.blocks, blockOK b ∧ isFooter b.kind = false

/-- An analysis with every field absent. -/
def emptyAnalysis : AnalysisV := ⟨none, none, none, none, none, none, none, none⟩

/-- An analysis carrying only a job summary. -/
def analysisOnlySummary (summary : String) : AnalysisV :=
  ⟨some summary, none, none, none, none, none, none, none⟩

/-- The end-to-end scenario's candidate. -/
def sampleGenome : GenomeV := ⟨⟨some "Jane Doe", some "Product Designer"⟩⟩

/-- The end-to-end scenario's job. -/
def sampleJob : JobV := ⟨"Senior Designer", some "Acme"⟩

/-- An analysis whose location section holds a long value: seventeen
one-line recommendation bullets park the cursor near the bottom of
page 1, and the 400-character location value then wraps to 8 lines. -/
def overflowAnalysis : AnalysisV :=
  { emptyAnalysis with
    recommendations := some (List.replicate 17 "item"),
    locationAndWorkStyle :=
      some ⟨some (String.mk (List.replicate 400 'a')), some "ok", some "ok", none⟩ }

/-! ### Lemmas: list and string basics -/

theorem mkData (s : String) : String.mk s.data = s := rfl

theorem lengthData (s : String) : s.data.length = s.length := rfl

theorem eatWs_not_ws {c : Char} (h : jsonWs c = false) (l : List Char) :
    eatWs (c :: l) = c :: l := by
  simp [eatWs, h]

/-- `takeWhile`/`dropWhile` split an append exactly at the boundary when
the left part satisfies the predicate and the right part starts with a
failure (or is empty). -/
theorem takeDropWhile_append {p : Char → Bool} : ∀ {l m : List Char},
    (∀ a ∈ l, p a = true) → (∀ c t, m = c :: t → p c = false) →
    (l ++ m).takeWhile p = l ∧ (l ++ m).dropWhile p = m := by
  intro l m hl hm
  induction l with
  | nil =>
    cases m with
    | nil => exact ⟨rfl, rfl⟩
    | cons c t =>
      have hc := hm c t rfl
      simp [List.takeWhile_cons, List.dropWhile_cons, hc]
  | cons a l ih =>
    have ha : p a = true := hl a (List.mem_cons_self a l)
    have ihl := ih (fun x hx => hl x (List.mem_cons_of_mem a hx))
    simp [List.takeWhile_cons, List.dropWhile_cons, ha, ihl.1, ihl.2]

/-! ### Lemmas: string-literal codec -/

theorem hexNib_nib (k : Nat) (hk : k < 16) : hexNib (nib k) = some k := by
  interval_cases k <;> decide

theorem strBody_quote (f : Nat) (rest : List Char) :
    strBody (f + 1) ('"' :: rest) = some ([], rest) := rfl

theorem strBody_hex (f : Nat) (a b x d : Char) (tail : List Char) :
    strBody (f + 1) ('\\' :: 'u' :: a :: b :: x :: d :: tail) =
      (match hexNib a, hexNib b, hexNib x, hexNib d with
       | some va, some vb, some vx, some vd =>
         (strBody f tail).map
           (fun p => (Char.ofNat (((va * 16 + vb) * 16 + vx) * 16 + vd) :: p.1, p.2))
       | _, _, _, _ => none) := rfl

theorem strBody_plain (f : Nat) (c : Char) (tail : List Char) (h1 : c ≠ '"')
    (h2 : c ≠ '\\') (h8 : ¬c.toNat < 32) :
    strBody (f + 1) (c :: tail) = (strBody f tail).map (fun p => (c :: p.1, p.2)) := by
  simp only [strBody, if_neg h1, if_neg h2, if_neg h8]

/-- Decoding one escaped character: `strBody` consumes `escChar c` in a
single fuel step and prepends `c`. -/
theorem strBody_escChar (c : Char) (f : Nat) (tail : List Char) :
    strBody (f + 1) (escChar c ++ tail) = (strBody f tail).map (fun p => (c :: p.1, p.2)) := by
  by_cases h1 : c = '"'
  · subst h1; rfl
  by_cases h2 : c = '\\'
  · subst h2; rfl
  by_cases h3 : c = '\x08'
  · subst h3; rfl
  by_cases h4 : c = '\x0c'
  · subst h4; rfl
  by_cases h5 : c = '\n'
  · subst h5; rfl
  by_cases h6 : c = '\r'
  · subst h6; rfl
  by_cases h7 : c = '\t'
  · subst h7; rfl
  by_cases h8 : c.toNat < 32
  · have hhi : c.toNat / 16 < 16 := by omega
    have hlo : c.toNat % 16 < 16 := by omega
    have harg : escChar c ++ tail
        = '\\' :: 'u' :: '0' :: '0' :: nib (c.toNat / 16) :: nib (c.toNat % 16) :: tail := by
      simp [escChar, h1, h2, h3, h4, h5, h6, h7, h8]
    have h0 : hexNib '0' = some 0 := rfl
    rw [harg, strBody_hex, h0, hexNib_nib _ hhi, hexNib_nib _ hlo]
    have hv2 : ((0 * 16 + 0) * 16 + c.toNat / 16) * 16 + c.toNat % 16 = c.toNat := by omega
    simp only [hv2, Char.ofNat_toNat]
  · have harg : escChar c ++ tail = c :: tail := by
      simp [escChar, h1, h2, h3, h4, h5, h6, h7, h8]
    rw [harg, strBody_plain f c tail h1 h2 h8]

/-- The string-body codec round-trip: given one unit of fuel per source
character plus one for the closing quote, `strBody` inverts `escChars`. -/
theorem strBody_escChars : ∀ (cs : List Char) (f : Nat) (rest : List Char),
    cs.length + 1 ≤ f →
    strBody f (escChars cs ++ '"' :: rest) = some (cs, rest) := by
  intro cs
  induction cs with
  | nil =>
    intro f rest hf
    match f, hf with
    | f + 1, _ => exact strBody_quote f rest
  | cons c cs ih =>
    intro f rest hf
    match f, hf with
    | f + 1, hf =>
      have hlen : cs.length + 1 ≤ f := by
        simp only [List.length_cons] at hf
        omega
      rw [escChars, List.append_assoc, strBody_escChar, ih f rest hlen]
      rfl

/-! ### Lemmas: heads of serialized values -/

theorem isDigit_facts {c : Char} (h : c.isDigit = true) :
    jsonWs c = false ∧ c ≠ 'n' ∧ c ≠ 't' ∧ c ≠ 'f' ∧ c ≠ '"' ∧ c ≠ '[' ∧ c ≠ '{' ∧
      c ≠ ']' ∧ c ≠ '}' := by
  refine ⟨?_, ?_, ?_, ?_, ?_, ?_, ?_, ?_, ?_⟩
  · cases hw : jsonWs c with
    | false => rfl
    | true =>
      exfalso
      simp only [jsonWs, Bool.or_eq_true, decide_eq_true_eq] at hw
      rcases hw with ((rfl | rfl) | rfl) | rfl <;> exact absurd h (by decide)
  all_goals exact fun h0 => absurd (h0 ▸ h) (by decide)

theorem numShape_head {l : List Char} (h : numShape l = true) :
    ∃ c t, l = c :: t ∧ (c = '-' ∨ c.isDigit = true) := by
  cases l with
  | nil => exact absurd h (by decide)
  | cons c t =>
    refine ⟨c, t, rfl, ?_⟩
    by_cases hc : c = '-'
    · exact Or.inl hc
    · refine Or.inr ?_
      have hh : headIs '-' (c :: t) = false := by simp [headIs, hc]
      simp only [numShape, hh, if_false, Bool.false_eq_true] at h
      by_cases hd : c.isDigit
      · exact hd
      · have hc0 : c ≠ '0' := by
          intro h0
          subst h0
          exact absurd (by decide : Char.isDigit '0' = true) hd
        rw [if_neg hc0, if_neg hd] at h
        exact absurd h (by decide)

/-- Every serialized valid value begins with a non-whitespace character
that is neither `]` nor `}`. -/
theorem strChars_head (v : Json) (hv : validJson v = true) :
    ∃ c t, strChars v = c :: t ∧ jsonWs c = false ∧ c ≠ ']' ∧ c ≠ '}' := by
  cases v with
  | num lexeme =>
    have hshape : numShape lexeme.data = true := by
      simp only [validJson, Bool.and_eq_true] at hv
      exact hv.1
    obtain ⟨c, t, hl, hc⟩ := numShape_head hshape
    refine ⟨c, t, by simpa [strChars] using hl, ?_, ?_, ?_⟩
    · rcases hc with rfl | hd
      · decide
      · exact (isDigit_facts hd).1
    · rcases hc with rfl | hd
      · decide
      · exact (isDigit_facts hd).2.2.2.2.2.2.2.1
    · rcases hc with rfl | hd
      · decide
      · exact (isDigit_facts hd).2.2.2.2.2.2.2.2
  | null =>
    refine ⟨'n', _, rfl, ?_, ?_, ?_⟩ <;> decide
  | bool b =>
    cases b <;> (refine ⟨_, _, rfl, ?_, ?_, ?_⟩ <;> decide)
  | str s =>
    refine ⟨'"', _, rfl, ?_, ?_, ?_⟩ <;> decide
  | arr xs =>
    rcases xs with _ | ⟨x, xs⟩ <;> (refine ⟨'[', _, rfl, ?_, ?_, ?_⟩ <;> decide)
  | obj ps =>
    rcases ps with _ | ⟨p, ps⟩ <;> (refine ⟨'{', _, rfl, ?_, ?_, ?_⟩ <;> decide)

theorem restOk_moreItems (v : Json) (xs : List Json) (rest : List Char) :
    restOk v (moreItems xs ++ ']' :: rest) := by
  cases v <;> try trivial
  case num lexeme =>
    cases xs with
    | nil => exact (by decide : numBodyChar ']' = false)
    | cons y ys => exact (by decide : numBodyChar ',' = false)

theorem restOk_morePairs (v : Json) (ps : List (String × Json)) (rest : List Char) :
    restOk v (morePairs ps ++ '}' :: rest) := by
  cases v <;> try trivial
  case num lexeme =>
    cases ps with
    | nil => exact (by decide : numBodyChar '}' = false)
    | cons q qs => exact (by decide : numBodyChar ',' = false)

theorem weight_pos (v : Json) : 1 ≤ weight v := by
  cases v <;> simp only [weight] <;> omega

/-! ### Lemmas: one-step reductions of the parser -/

theorem parseVal_null (f : Nat) (l : List Char) :
    parseVal (f + 1) ('n' :: 'u' :: 'l' :: 'l' :: l) = some (.null, l) := rfl

theorem parseVal_true (f : Nat) (l : List Char) :
    parseVal (f + 1) ('t' :: 'r' :: 'u' :: 'e' :: l) = some (.bool true, l) := rfl

theorem parseVal_false (f : Nat) (l : List Char) :
    parseVal (f + 1) ('f' :: 'a' :: 'l' :: 's' :: 'e' :: l) = some (.bool false, l) := rfl

theorem parseVal_quote (f : Nat) (l : List Char) :
    parseVal (f + 1) ('"' :: l)
      = (strBody f l).map (fun p => (.str (String.mk p.1), p.2)) := rfl

theorem parseVal_lbrack (f : Nat) (l : List Char) :
    parseVal (f + 1) ('[' :: l)
      = (if headIs ']' (eatWs l) then some (.arr [], (eatWs l).tail)
         else (parseItems f (eatWs l)).map (fun p => (.arr p.1, p.2))) := rfl

theorem parseVal_lbrace (f : Nat) (l : List Char) :
    parseVal (f + 1) ('{' :: l)
      = (if headIs '}' (eatWs l) then some (.obj [], (eatWs l).tail)
         else (parsePairs f (eatWs l)).map (fun p => (.obj p.1, p.2))) := rfl

/-- The number branch: any other non-whitespace head falls through to
the number token rule. -/
theorem parseVal_other (f : Nat) (c : Char) (l : List Char) (hws : jsonWs c = false)
    (hn : c ≠ 'n') (ht : c ≠ 't') (hf : c ≠ 'f') (hq : c ≠ '"') (hlb : c ≠ '[')
    (hlc : c ≠ '{') :
    parseVal (f + 1) (c :: l)
      = (if numShape ((c :: l).takeWhile numBodyChar) then
           some (.num (String.mk ((c :: l).takeWhile numBodyChar)),
             (c :: l).dropWhile numBodyChar)
         else none) := by
  simp only [parseVal, eatWs_not_ws hws, if_neg hn, if_neg ht, if_neg hf, if_neg hq,
    if_neg hlb, if_neg hlc]

theorem parseItems_succ (f : Nat) (input : List Char) :
    parseItems (f + 1) input
      = (match parseVal f input with
         | none => none
         | some (v, r) =>
           if headIs ',' (eatWs r) then
             (parseItems f (eatWs r).tail).map (fun p => (v :: p.1, p.2))
           else if headIs ']' (eatWs r) then some ([v], (eatWs r).tail)
           else none) := rfl

theorem parsePairs_quote (f : Nat) (l : List Char) :
    parsePairs (f + 1) ('"' :: l)
      = (match strBody f l with
         | none => none
         | some (k, r1) =>
           if headIs ':' (eatWs r1) then
             match parseVal f (eatWs r1).tail with
             | none => none
             | some (v, r3) =>
               if headIs ',' (eatWs r3) then
                 (parsePairs f (eatWs r3).tail).map
                   (fun p => ((String.mk k, v) :: p.1, p.2))
               else if headIs '}' (eatWs r3) then some ([(String.mk k, v)], (eatWs r3).tail)
               else none
           else none) := rfl

/-! ### The serializer/parser round-trip -/

theorem validItems_cons (x : Json) (xs : List Json) :
    validItems (x :: xs) = (validJson x && validItems xs) := rfl

theorem validPairs_cons (k : String) (v : Json) (ps : List (String × Json)) :
    validPairs ((k, v) :: ps) = (validJson v && validPairs ps) := rfl

mutual

/-- Parsing a serialized valid value recovers it exactly, for any fuel
of at least its weight and any follower that cannot extend it. -/
theorem rt_val : ∀ (v : Json) (f : Nat) (rest : List Char),
    validJson v = true → weight v ≤ f → restOk v rest →
    parseVal f (strChars v ++ rest) = some (v, rest)
  | .null, f, rest, _, hf, _ => by
    match f, hf with
    | f + 1, _ => exact parseVal_null f rest
  | .bool true, f, rest, _, hf, _ => by
    match f, hf with
    | f + 1, _ => exact parseVal_true f rest
  | .bool false, f, rest, _, hf, _ => by
    match f, hf with
    | f + 1, _ => exact parseVal_false f rest
  | .str s, f, rest, _, hf, _ => by
    match f, hf with
    | f + 1, hf =>
      have hlen : s.data.length + 1 ≤ f := by
        have h1 : weight (.str s) = s.length + 2 := rfl
        rw [h1] at hf
        rw [lengthData]
        omega
      have harg : strChars (.str s) ++ rest = '"' :: (escChars s.data ++ '"' :: rest) := by
        simp [strChars]
      rw [harg, parseVal_quote, strBody_escChars s.data f rest hlen]
      rfl
  | .num lexeme, f, rest, hv, hf, hr => by
    match f, hf with
    | f + 1, _ =>
      simp only [validJson, Bool.and_eq_true] at hv
      obtain ⟨hshape, hall⟩ := hv
      obtain ⟨c, t, hl, hc⟩ := numShape_head hshape
      have hws : jsonWs c = false := by
        rcases hc with rfl | hd
        · decide
        · exact (isDigit_facts hd).1
      have hn : c ≠ 'n' := by
        rcases hc with rfl | hd
        · decide
        · exact (isDigit_facts hd).2.1
      have ht : c ≠ 't' := by
        rcases hc with rfl | hd
        · decide
        · exact (isDigit_facts hd).2.2.1
      have hfc : c ≠ 'f' := by
        rcases hc with rfl | hd
        · decide
        · exact (isDigit_facts hd).2.2.2.1
      have hq : c ≠ '"' := by
        rcases hc with rfl | hd
        · decide
        · exact (isDigit_facts hd).2.2.2.2.1
      have hlb : c ≠ '[' := by
        rcases hc with rfl | hd
        · decide
        · exact (isDigit_facts hd).2.2.2.2.2.1
      have hlc : c ≠ '{' := by
        rcases hc with rfl | hd
        · decide
        · exact (isDigit_facts hd).2.2.2.2.2.2.1
      have harg : strChars (.num lexeme) ++ rest = c :: (t ++ rest) := by
        simp [strChars, hl]
      have hsplit := takeDropWhile_append (p := numBodyChar) (l := lexeme.data) (m := rest)
        (fun a ha => by
          rw [List.all_eq_true] at hall
          exact hall a ha)
        (fun c2 t2 he => by
          subst he
          exact hr)
      rw [harg, parseVal_other f c (t ++ rest) hws hn ht hfc hq hlb hlc]
      have hcons : c :: (t ++ rest) = lexeme.data ++ rest := by
        rw [hl]
        rfl
      rw [hcons, hsplit.1, hsplit.2, if_pos hshape, mkData]
  | .arr [], f, rest, _, hf, _ => by
    match f, hf with
    | f + 1, _ =>
      have harg : strChars (.arr []) ++ rest = '[' :: ']' :: rest := rfl
      rw [harg, parseVal_lbrack, eatWs_not_ws (by decide)]
      simp [headIs]
  | .arr (x :: xs), f, rest, hv, hf, _ => by
    match f, hf with
    | 0, hf =>
      exact absurd hf (by have := weight_pos (.arr (x :: xs)); omega)
    | f + 1, hf =>
      have hvi : validItems (x :: xs) = true := hv
      have hvx : validJson x = true := by
        rw [validItems_cons, Bool.and_eq_true] at hvi
        exact hvi.1
      have hwi : itemsWeight (x :: xs) ≤ f := by
        have h1 : weight (.arr (x :: xs)) = 1 + itemsWeight (x :: xs) := rfl
        rw [h1] at hf
        omega
      have harg : strChars (.arr (x :: xs)) ++ rest
          = '[' :: (strChars x ++ (moreItems xs ++ (']' :: rest))) := by
        simp [strChars]
      obtain ⟨c, t, hsc, hws, hnr, _⟩ := strChars_head x hvx
      have hmid : strChars x ++ (moreItems xs ++ (']' :: rest))
          = c :: (t ++ (moreItems xs ++ (']' :: rest))) := by
        rw [hsc]
        rfl
      have heat : eatWs (strChars x ++ (moreItems xs ++ (']' :: rest)))
          = strChars x ++ (moreItems xs ++ (']' :: rest)) := by
        rw [hmid, eatWs_not_ws hws, ← hmid]
      have hhead : headIs ']' (eatWs (strChars x ++ (moreItems xs ++ (']' :: rest))))
          = false := by
        rw [heat, hmid]
        simp [headIs, hnr]
      rw [harg, parseVal_lbrack, hhead]
      simp only [Bool.false_eq_true, if_false]
      rw [heat, rt_items x xs f rest hvi hwi]
      rfl
  | .obj [], f, rest, _, hf, _ => by
    match f, hf with
    | f + 1, _ =>
      have harg : strChars (.obj []) ++ rest = '{' :: '}' :: rest := rfl
      rw [harg, parseVal_lbrace, eatWs_not_ws (by decide)]
      simp [headIs]
  | .obj ((k, v) :: ps), f, rest, hv, hf, _ => by
    match f, hf with
    | 0, hf =>
      exact absurd hf (by have := weight_pos (.obj ((k, v) :: ps)); omega)
    | f + 1, hf =>
      have hvp : validPairs ((k, v) :: ps) = true := hv
      have hwp : pairsWeight ((k, v) :: ps) ≤ f := by
        have h1 : weight (.obj ((k, v) :: ps)) = 1 + pairsWeight ((k, v) :: ps) := rfl
        rw [h1] at hf
        omega
      have harg : strChars (.obj ((k, v) :: ps)) ++ rest
          = '{' :: (pairChars (k, v) ++ (morePairs ps ++ ('}' :: rest))) := by
        simp [strChars]
      have hpc : pairChars (k, v) ++ (morePairs ps ++ ('}' :: rest))
          = '"' :: (escChars k.data
              ++ ('"' :: (':' :: (strChars v ++ (morePairs ps ++ ('}' :: rest)))))) := by
        simp [pairChars]
      have heat : eatWs (pairChars (k, v) ++ (morePairs ps ++ ('}' :: rest)))
          = pairChars (k, v) ++ (morePairs ps ++ ('}' :: rest)) := by
        rw [hpc, eatWs_not_ws (by decide), ← hpc]
      have hhead : headIs '}' (eatWs (pairChars (k, v) ++ (morePairs ps ++ ('}' :: rest))))
          = false := by
        rw [heat, hpc]
        rfl
      rw [harg, parseVal_lbrace, hhead]
      simp only [Bool.false_eq_true, if_false]
      rw [heat, rt_pairs k v ps f rest hvp hwp]
      rfl

/-- Parsing the serialized items of a nonempty array, up to and
including the closing bracket. -/
theorem rt_items : ∀ (x : Json) (xs : List Json) (f : Nat) (rest : List Char),
    validItems (x :: xs) = true → itemsWeight (x :: xs) ≤ f →
    parseItems f (strChars x ++ (moreItems xs ++ (']' :: rest))) = some (x :: xs, rest)
  | x, xs, f, rest, hv, hf => by
    match f, hf with
    | 0, hf =>
      have h1 : itemsWeight (x :: xs) = 1 + weight x + itemsWeight xs := rfl
      rw [h1] at hf
      exact absurd hf (by omega)
    | f + 1, hf =>
      rw [validItems_cons, Bool.and_eq_true] at hv
      have hwx : weight x ≤ f := by
        have h1 : itemsWeight (x :: xs) = 1 + weight x + itemsWeight xs := rfl
        rw [h1] at hf
        omega
      rw [parseItems_succ,
        rt_val x f (moreItems xs ++ (']' :: rest)) hv.1 hwx (restOk_moreItems x xs rest)]
      match xs, hv, hf with
      | [], _, _ =>
        have h0 : moreItems ([] : List Json) ++ (']' :: rest) = ']' :: rest := rfl
        show (if headIs ',' (eatWs (moreItems ([] : List Json) ++ (']' :: rest))) then
            (parseItems f (eatWs (moreItems ([] : List Json) ++ (']' :: rest))).tail).map
              (fun p => (x :: p.1, p.2))
          else if headIs ']' (eatWs (moreItems ([] : List Json) ++ (']' :: rest))) then
            some ([x], (eatWs (moreItems ([] : List Json) ++ (']' :: rest))).tail)
          else none) = some ([x], rest)
        rw [h0, eatWs_not_ws (by decide)]
        simp [headIs]
      | y :: ys, hv, hf =>
        have hm : moreItems (y :: ys) ++ (']' :: rest)
            = ',' :: (strChars y ++ (moreItems ys ++ (']' :: rest))) := by
          simp [moreItems]
        have hwys : itemsWeight (y :: ys) ≤ f := by
          have h1 : itemsWeight (x :: y :: ys) = 1 + weight x + itemsWeight (y :: ys) := rfl
          rw [h1] at hf
          omega
        show (if headIs ',' (eatWs (moreItems (y :: ys) ++ (']' :: rest))) then
            (parseItems f (eatWs (moreItems (y :: ys) ++ (']' :: rest))).tail).map
              (fun p => (x :: p.1, p.2))
          else if headIs ']' (eatWs (moreItems (y :: ys) ++ (']' :: rest))) then
            some ([x], (eatWs (moreItems (y :: ys) ++ (']' :: rest))).tail)
          else none) = some (x :: y :: ys, rest)
        rw [hm, eatWs_not_ws (by decide)]
        have hcomma : headIs ',' (',' :: (strChars y ++ (moreItems ys ++ (']' :: rest))))
            = true := rfl
        rw [if_pos hcomma]
        show (parseItems f (strChars y ++ (moreItems ys ++ (']' :: rest)))).map
            (fun p => (x :: p.1, p.2)) = some (x :: y :: ys, rest)
        rw [rt_items y ys f rest hv.2 hwys]
        rfl

/-- Parsing the serialized members of a nonempty object, up to and
including the closing brace. -/
theorem rt_pairs : ∀ (k : String) (v : Json) (ps : List (String × Json)) (f : Nat)
    (rest : List Char),
    validPairs ((k, v) :: ps) = true → pairsWeight ((k, v) :: ps) ≤ f →
    parsePairs f (pairChars (k, v) ++ (morePairs ps ++ ('}' :: rest)))
      = some ((k, v) :: ps, rest)
  | k, v, ps, f, rest, hv, hf => by
    match f, hf with
    | 0, hf =>
      have h1 : pairsWeight ((k, v) :: ps) = 2 + k.length + weight v + pairsWeight ps := rfl
      rw [h1] at hf
      exact absurd hf (by omega)
    | f + 1, hf =>
      rw [validPairs_cons, Bool.and_eq_true] at hv
      have hkl : k.data.length + 1 ≤ f := by
        have h1 : pairsWeight ((k, v) :: ps) = 2 + k.length + weight v + pairsWeight ps := rfl
        rw [h1] at hf
        rw [lengthData]
        omega
      have hwv : weight v ≤ f := by
        have h1 : pairsWeight ((k, v) :: ps) = 2 + k.length + weight v + pairsWeight ps := rfl
        rw [h1] at hf
        omega
      have hpc : pairChars (k, v) ++ (morePairs ps ++ ('}' :: rest))
          = '"' :: (escChars k.data
              ++ ('"' :: (':' :: (strChars v ++ (morePairs ps ++ ('}' :: rest)))))) := by
        simp [pairChars]
      rw [hpc, parsePairs_quote,
        strBody_escChars k.data f (':' :: (strChars v ++ (morePairs ps ++ ('}' :: rest)))) hkl]
      show (if headIs ':' (eatWs (':' :: (strChars v ++ (morePairs ps ++ ('}' :: rest))))) then
          match parseVal f (eatWs (':' :: (strChars v ++ (morePairs ps ++ ('}' :: rest))))).tail
          with
          | none => none
          | some (w, r3) =>
            if headIs ',' (eatWs r3) then
              (parsePairs f (eatWs r3).tail).map
                (fun p => ((String.mk k.data, w) :: p.1, p.2))
            else if headIs '}' (eatWs r3) then
              some ([(String.mk k.data, w)], (eatWs r3).tail)
            else none
        else none) = some ((k, v) :: ps, rest)
      rw [eatWs_not_ws (by decide)]
      have hcolon : headIs ':' (':' :: (strChars v ++ (morePairs ps ++ ('}' :: rest))))
          = true := rfl
      rw [if_pos hcolon]
      show (match parseVal f (strChars v ++ (morePairs ps ++ ('}' :: rest))) with
          | none => none
          | some (w, r3) =>
            if headIs ',' (eatWs r3) then
              (parsePairs f (eatWs r3).tail).map
                (fun p => ((String.mk k.data, w) :: p.1, p.2))
            else if headIs '}' (eatWs r3) then
              some ([(String.mk k.data, w)], (eatWs r3).tail)
            else none) = some ((k, v) :: ps, rest)
      rw [rt_val v f (morePairs ps ++ ('}' :: rest)) hv.1 hwv (restOk_morePairs v ps rest)]
      match ps, hv, hf with
      | [], _, _ =>
        have h0 : morePairs ([] : List (String × Json)) ++ ('}' :: rest) = '}' :: rest := rfl
        show (if headIs ',' (eatWs (morePairs ([] : List (String × Json)) ++ ('}' :: rest)))
          then
            (parsePairs f
              (eatWs (morePairs ([] : List (String × Json)) ++ ('}' :: rest))).tail).map
              (fun p => ((String.mk k.data, v) :: p.1, p.2))
          else if headIs '}' (eatWs (morePairs ([] : List (String × Json)) ++ ('}' :: rest)))
          then
            some ([(String.mk k.data, v)],
              (eatWs (morePairs ([] : List (String × Json)) ++ ('}' :: rest))).tail)
          else none) = some ([(k, v)], rest)
        rw [h0, eatWs_not_ws (by decide)]
        simp [headIs]
      | (k2, v2) :: ps2, hv, hf =>
        have hm : morePairs ((k2, v2) :: ps2) ++ ('}' :: rest)
            = ',' :: (pairChars (k2, v2) ++ (morePairs ps2 ++ ('}' :: rest))) := by
          simp [morePairs]
        have hwp2 : pairsWeight ((k2, v2) :: ps2) ≤ f := by
          have h1 : pairsWeight ((k, v) :: (k2, v2) :: ps2)
              = 2 + k.length + weight v + pairsWeight ((k2, v2) :: ps2) := rfl
          rw [h1] at hf
          omega
        show (if headIs ',' (eatWs (morePairs ((k2, v2) :: ps2) ++ ('}' :: rest))) then
            (parsePairs f (eatWs (morePairs ((k2, v2) :: ps2) ++ ('}' :: rest))).tail).map
              (fun p => ((String.mk k.data, v) :: p.1, p.2))
          else if headIs '}' (eatWs (morePairs ((k2, v2) :: ps2) ++ ('}' :: rest))) then
            some ([(String.mk k.data, v)],
              (eatWs (morePairs ((k2, v2) :: ps2) ++ ('}' :: rest))).tail)
          else none) = some ((k, v) :: (k2, v2) :: ps2, rest)
        rw [hm, eatWs_not_ws (by decide)]
        have hcomma : headIs ','
            (',' :: (pairChars (k2, v2) ++ (morePairs ps2 ++ ('}' :: rest)))) = true := rfl
        rw [if_pos hcomma]
        show (parsePairs f (pairChars (k2, v2) ++ (morePairs ps2 ++ ('}' :: rest)))).map
            (fun p => ((String.mk k.data, v) :: p.1, p.2))
          = some ((k, v) :: (k2, v2) :: ps2, rest)
        rw [rt_pairs k2 v2 ps2 f rest hv.2 hwp2]
        rfl

end

/-! ### Fuel bounds: a value's weight never exceeds its serialized length -/

theorem escChar_len (c : Char) : 1 ≤ (escChar c).length := by
  unfold escChar
  split_ifs <;> simp

theorem escChars_len : ∀ cs : List Char, cs.length ≤ (escChars cs).length := by
  intro cs
  induction cs with
  | nil => simp [escChars]
  | cons c r ih =>
    have hc := escChar_len c
    simp only [escChars, List.length_append, List.length_cons]
    omega

mutual

theorem weight_le_len : ∀ (v : Json), validJson v = true → weight v ≤ (strChars v).length
  | .null, _ => by decide
  | .bool true, _ => by decide
  | .bool false, _ => by decide
  | .num lexeme, hv => by
    simp only [validJson, Bool.and_eq_true] at hv
    obtain ⟨c, t, hl, _⟩ := numShape_head hv.1
    have h1 : weight (.num lexeme) = 1 := rfl
    have h2 : strChars (.num lexeme) = lexeme.data := rfl
    rw [h1, h2, hl]
    simp
  | .str s, _ => by
    have h1 : weight (.str s) = s.length + 2 := rfl
    have h2 : strChars (.str s) = '"' :: (escChars s.data ++ ['"']) := rfl
    have h3 := escChars_len s.data
    rw [h1, h2]
    simp only [List.length_cons, List.length_append, List.length_singleton]
    rw [← lengthData]
    omega
  | .arr [], _ => by decide
  | .arr (x :: xs), hv => by
    rw [show validJson (.arr (x :: xs)) = validItems (x :: xs) from rfl,
      validItems_cons, Bool.and_eq_true] at hv
    have h1 : weight (.arr (x :: xs)) = 1 + (1 + weight x + itemsWeight xs) := rfl
    have h2 : strChars (.arr (x :: xs)) = '[' :: (strChars x ++ (moreItems xs ++ [']'])) := rfl
    have h3 := weight_le_len x hv.1
    have h4 := itemsWeight_le_len xs hv.2
    rw [h1, h2]
    simp only [List.length_cons, List.length_append, List.length_singleton]
    omega
  | .obj [], _ => by decide
  | .obj ((k, v) :: ps), hv => by
    rw [show validJson (.obj ((k, v) :: ps)) = validPairs ((k, v) :: ps) from rfl,
      validPairs_cons, Bool.and_eq_true] at hv
    have h1 : weight (.obj ((k, v) :: ps))
        = 1 + (2 + k.length + weight v + pairsWeight ps) := rfl
    have h2 : strChars (.obj ((k, v) :: ps))
        = '{' :: (pairChars (k, v) ++ (morePairs ps ++ ['}'])) := rfl
    have h3 := weight_le_len v hv.1
    have h4 := pairsWeight_le_len ps hv.2
    have h5 : (pairChars (k, v)).length = 3 + (escChars k.data).length + (strChars v).length := by
      have : pairChars (k, v) = '"' :: (escChars k.data ++ ('"' :: ':' :: strChars v)) := rfl
      rw [this]
      simp only [List.length_cons, List.length_append]
      omega
    have h6 := escChars_len k.data
    rw [h1, h2]
    simp only [List.length_cons, List.length_append, List.length_singleton]
    rw [h5, ← lengthData]
    omega

theorem itemsWeight_le_len : ∀ (xs : List Json), validItems xs = true →
    itemsWeight xs ≤ (moreItems xs).length
  | [], _ => by decide
  | x :: xs, hv => by
    rw [validItems_cons, Bool.and_eq_true] at hv
    have h1 : itemsWeight (x :: xs) = 1 + weight x + itemsWeight xs := rfl
    have h2 : moreItems (x :: xs) = ',' :: (strChars x ++ moreItems xs) := rfl
    have h3 := weight_le_len x hv.1
    have h4 := itemsWeight_le_len xs hv.2
    rw [h1, h2]
    simp only [List.length_cons, List.length_append]
    omega

theorem pairsWeight_le_len : ∀ (ps : List (String × Json)), validPairs ps = true →
    pairsWeight ps ≤ (morePairs ps).length
  | [], _ => by decide
  | (k, v) :: ps, hv => by
    rw [validPairs_cons, Bool.and_eq_true] at hv
    have h1 : pairsWeight ((k, v) :: ps) = 2 + k.length + weight v + pairsWeight ps := rfl
    have h2 : morePairs ((k, v) :: ps) = ',' :: (pairChars (k, v) ++ morePairs ps) := rfl
    have h3 := weight_le_len v hv.1
    have h4 := pairsWeight_le_len ps hv.2
    have h5 : (pairChars (k, v)).length = 3 + (escChars k.data).length + (strChars v).length := by
      have h6 : pairChars (k, v) = '"' :: (escChars k.data ++ ('"' :: ':' :: strChars v)) := rfl
      rw [h6]
      simp only [List.length_cons, List.length_append]
      omega
    have h7 := escChars_len k.data
    rw [h1, h2]
    simp only [List.length_cons, List.length_append]
    rw [h5, ← lengthData]
    omega

end

theorem restOk_nil (v : Json) : restOk v [] := by
  cases v <;> trivial

/-- The model of `JSON.parse` inverts the model of `JSON.stringify` on
every valid value. -/
theorem jsonParse_stringify (v : Json) (hv : validJson v = true) :
    jsonParse (stringify v) = some v := by
  have hd : (stringify v).data = strChars v := rfl
  have hfuel : weight v ≤ (strChars v).length + 2 := by
    have := weight_le_len v hv
    omega
  have h1 := rt_val v ((strChars v).length + 2) [] hv hfuel (restOk_nil v)
  rw [List.append_nil] at h1
  unfold jsonParse
  rw [hd, h1]
  rfl

/-! ### Brace-span arithmetic -/

theorem idxOf?_hit (x : Char) : ∀ (l t : List Char), (∀ a ∈ l, a ≠ x) →
    idxOf? x (l ++ x :: t) = some l.length
  | [], t, _ => by simp [idxOf?]
  | c :: l, t, h => by
    have hc : c ≠ x := h c (List.mem_cons_self c l)
    have ih := idxOf?_hit x l t (fun a ha => h a (List.mem_cons_of_mem c ha))
    simp only [List.cons_append, idxOf?, if_neg hc]
    show Option.map (· + 1) (idxOf? x (l ++ x :: t)) = some (c :: l).length
    rw [ih]
    rfl

/-- `braceSpan` on brace-free noise around a serialization that starts
with `{` and ends with `}`: exactly the serialized span is extracted. -/
theorem braceSpan_noise (p S t : List Char) (S1 S0 : List Char)
    (hp : ∀ a ∈ p, a ≠ '{') (ht : ∀ a ∈ t, a ≠ '}')
    (hS1 : S = '{' :: S1) (hS0 : S = S0 ++ ['}']) :
    braceSpan (String.mk (p ++ S ++ t)) = some (String.mk S) := by
  have hdata : (String.mk (p ++ S ++ t)).data = p ++ S ++ t := rfl
  have hlen : S.length = S0.length + 1 := by
    rw [hS0]
    simp
  have hfirst : firstBrace (p ++ S ++ t) = some p.length := by
    unfold firstBrace
    rw [hS1, List.append_assoc]
    exact idxOf?_hit '{' p (S1 ++ t) hp
  have hrev : (p ++ S ++ t).reverse = t.reverse ++ '}' :: (S0.reverse ++ p.reverse) := by
    rw [hS0]
    simp
  have hlast : lastClose (p ++ S ++ t) = some (p.length + S0.length) := by
    unfold lastClose
    rw [hrev, idxOf?_hit '}' t.reverse (S0.reverse ++ p.reverse)
      (fun a ha => ht a (List.mem_reverse.mp ha))]
    simp only [Option.map_some']
    congr 1
    simp only [List.length_append, List.length_reverse]
    rw [hlen]
    omega
  have hij : p.length < p.length + S0.length := by
    have : 1 ≤ S0.length := by
      cases S0 with
      | nil =>
        exfalso
        rw [hS0] at hS1
        simp at hS1
      | cons a l => simp
    omega
  unfold braceSpan
  rw [hdata, hfirst, hlast]
  show (if p.length < p.length + S0.length then
      some (String.mk (((p ++ S ++ t).drop p.length).take (p.length + S0.length - p.length + 1)))
    else none) = some (String.mk S)
  rw [if_pos hij]
  have hdrop : (p ++ S ++ t).drop p.length = S ++ t := by
    rw [List.append_assoc]
    exact List.drop_left p (S ++ t)
  have htake : (S ++ t).take (p.length + S0.length - p.length + 1) = S := by
    have h2 : p.length + S0.length - p.length + 1 = S.length := by omega
    rw [h2]
    exact List.take_left S t
  rw [hdrop, htake]

theorem parseVal_noise (f : Nat) (l : List Char) :
    parseVal (f + 1) ('n' :: 'o' :: 'i' :: 's' :: 'e' :: l) = none := rfl

/-- A direct `JSON.parse` of `"noise " ++ anything` fails. -/
theorem jsonParse_noise (s : String) (h : s.data = 'n' :: 'o' :: 'i' :: 's' :: 'e' :: ' ' :: (s.data.drop 6)) :
    jsonParse s = none := by
  unfold jsonParse
  rw [h]
  have h2 : ('n' :: 'o' :: 'i' :: 's' :: 'e' :: ' ' :: (s.data.drop 6)).length + 2
      = ((s.data.drop 6).length + 7) + 1 := by
    simp only [List.length_cons]
  rw [h2, parseVal_noise]

/-- A serialized object starts with `{`. -/
theorem strChars_obj_head (ps : List (String × Json)) :
    ∃ S1, strChars (.obj ps) = '{' :: S1 := by
  cases ps with
  | nil => exact ⟨['}'], rfl⟩
  | cons p ps => exact ⟨pairChars p ++ (morePairs ps ++ ['}']), rfl⟩

/-- A serialized object ends with `}`. -/
theorem strChars_obj_last (ps : List (String × Json)) :
    ∃ S0, strChars (.obj ps) = S0 ++ ['}'] := by
  cases ps with
  | nil => exact ⟨['{'], rfl⟩
  | cons p ps =>
    refine ⟨'{' :: (pairChars p ++ morePairs ps), ?_⟩
    have h1 : strChars (.obj (p :: ps)) = '{' :: (pairChars p ++ (morePairs ps ++ ['}'])) := rfl
    rw [h1]
    simp

/-! ### Claim theorems: `parseAIResponse` (C2, C3, C4, C8) -/

/-- C2: for every string that is a valid JSON object, `parseAIResponse`
returns exactly the object `JSON.parse` yields, with no schema
validation of its fields. -/
theorem C2_direct_parse_object (s : String) (ps : List (String × Json))
    (h : jsonParse s = some (.obj ps)) :
    parseAIResponse s = .ok (.obj ps) := by
  unfold parseAIResponse
  rw [h]

/-- Witness for C2 at the concrete input `{"a": 1}`. -/
theorem C2_direct_parse_object_witness :
    parseAIResponse "\x7b\"a\": 1\x7d" = .ok (.obj [("a", .num "1")]) :=
  C2_direct_parse_object "\x7b\"a\": 1\x7d" [("a", .num "1")] rfl

/-- C3: wrapping a serialized object in brace-free prose (`"noise "`
before, `" trailing"` after) still recovers exactly that object, via
the greedy first-`{`-to-last-`}` span. -/
theorem C3_brace_span_fallback (ps : List (String × Json))
    (hv : validJson (.obj ps) = true) :
    parseAIResponse ("noise " ++ stringify (.obj ps) ++ " trailing") = .ok (.obj ps) := by
  obtain ⟨S1, hS1⟩ := strChars_obj_head ps
  obtain ⟨S0, hS0⟩ := strChars_obj_last ps
  have hdata : ("noise " ++ stringify (.obj ps) ++ " trailing").data
      = "noise ".data ++ strChars (.obj ps) ++ " trailing".data := rfl
  have hmk := congrArg String.mk hdata
  rw [mkData] at hmk
  have hnone : jsonParse ("noise " ++ stringify (.obj ps) ++ " trailing") = none := by
    apply jsonParse_noise
    rw [hdata]
    have hdrop : (("noise ".data ++ strChars (.obj ps) ++ " trailing".data).drop 6)
        = strChars (.obj ps) ++ " trailing".data := by
      rw [List.append_assoc]
      exact List.drop_left "noise ".data (strChars (.obj ps) ++ " trailing".data)
    rw [hdrop, List.append_assoc]
    rfl
  have hspan : braceSpan ("noise " ++ stringify (.obj ps) ++ " trailing")
      = some (String.mk (strChars (.obj ps))) := by
    rw [hmk]
    exact braceSpan_noise "noise ".data (strChars (.obj ps)) " trailing".data S1 S0
      (by decide) (by decide) hS1 hS0
  have hparse : jsonParse (String.mk (strChars (.obj ps))) = some (.obj ps) :=
    jsonParse_stringify (.obj ps) hv
  unfold parseAIResponse
  rw [hnone, hspan]
  show (match jsonParse (String.mk (strChars (.obj ps))) with
    | some v => Except.ok v
    | none => Except.error AIParseError.syntaxError) = Except.ok (Json.obj ps)
  rw [hparse]

/-- Witness for C3 at the concrete object `{"a":1}`. -/
theorem C3_brace_span_fallback_witness :
    parseAIResponse ("noise " ++ stringify (.obj [("a", .num "1")]) ++ " trailing")
      = .ok (.obj [("a", .num "1")]) :=
  C3_brace_span_fallback [("a", .num "1")] (by decide)

/-- Counterexample to C4 as stated: `"true"` contains no brace and does
not fail (the direct parse returns it), and when both parses do fail
(`"xyzzy"`), the thrown error carries only the fixed message
`"Failed to parse AI response"`, which does not contain the raw input. -/
theorem C4_counterexample :
    parseAIResponse "true" = .ok (.bool true) ∧
      parseAIResponse "xyzzy" = .error (.thrownError "Failed to parse AI response") ∧
      containsStr "Failed to parse AI response" "xyzzy" = false := by
  refine ⟨rfl, rfl, ?_⟩
  decide

/-- C4 (amended): when the direct parse fails, the fallback's outcome
splits on the brace-span match: with no match the handler throws the
fixed `Error("Failed to parse AI response")` (the raw text is not
attached); with a match whose span does not parse, the `SyntaxError`
from `JSON.parse` propagates uncaught instead. -/
theorem C4_unparseable_failure (s : String) (h1 : jsonParse s = none) :
    (braceSpan s = none →
      parseAIResponse s = .error (.thrownError "Failed to parse AI response")) ∧
    (∀ span, braceSpan s = some span → jsonParse span = none →
      parseAIResponse s = .error .syntaxError) := by
  constructor
  · intro h2
    unfold parseAIResponse
    rw [h1, h2]
  · intro span h2 h3
    unfold parseAIResponse
    rw [h1, h2]
    show (match jsonParse span with
      | some v => Except.ok v
      | none => Except.error AIParseError.syntaxError) = Except.error AIParseError.syntaxError
    rw [h3]

/-- Witness for the amended C4 on both failure paths: a brace-free
input gets the fixed thrown error, and an unparseable braced input
surfaces the propagated `SyntaxError`. -/
theorem C4_unparseable_failure_witness :
    parseAIResponse "no json here" = .error (.thrownError "Failed to parse AI response") ∧
      parseAIResponse "\x7bbad\x7d" = .error .syntaxError :=
  ⟨(C4_unparseable_failure "no json here" rfl).1 rfl,
    (C4_unparseable_failure "\x7bbad\x7d" rfl).2 "\x7bbad\x7d" rfl rfl⟩

/-- Counterexample to C8 as stated: `"42"` direct-parses to the
non-object value `42`, and `parseAIResponse` returns that value as the
result anyway (the source has no is-object check). -/
theorem C8_counterexample :
    jsonParse "42" = some (.num "42") ∧ parseAIResponse "42" = .ok (.num "42") :=
  ⟨rfl, rfl⟩

/-- C8 (amended): `parseAIResponse` returns whatever the direct parse
yields whenever it succeeds, object or not. -/
theorem C8_direct_parse_unchecked (s : String) (v : Json) (h : jsonParse s = some v) :
    parseAIResponse s = .ok v := by
  unfold parseAIResponse
  rw [h]

/-- Witness for the amended C8 at the non-object input `"42"`. -/
theorem C8_direct_parse_unchecked_witness : parseAIResponse "42" = .ok (.num "42") :=
  C8_direct_parse_unchecked "42" (.num "42") rfl

/-! ### Content-pass invariants -/

theorem emitAt_blocks (k : BKind) (yv : Int) (s : GenState) :
    (emitAt k yv s).blocks = s.blocks ++ [⟨k, s.page, yv⟩] := rfl

theorem emitAt_y (k : BKind) (yv : Int) (s : GenState) : (emitAt k yv s).y = s.y := rfl

theorem addNewPageIfNeeded_blocks (h : Int) (s : GenState) :
    (addNewPageIfNeeded h s).blocks = s.blocks := by
  unfold addNewPageIfNeeded
  split_ifs <;> rfl

theorem addNewPageIfNeeded_y_ge (h : Int) {s : GenState} (hs : margin ≤ s.y) :
    margin ≤ (addNewPageIfNeeded h s).y := by
  unfold addNewPageIfNeeded
  split_ifs
  · exact le_refl margin
  · exact hs

/-- After a successful overflow check for a block of nonnegative
height, the cursor sits at or above the bottom margin. -/
theorem addNewPageIfNeeded_y_le (h : Int) (hh : 0 ≤ h) (s : GenState) :
    (addNewPageIfNeeded h s).y ≤ pageHeight - margin := by
  unfold addNewPageIfNeeded
  split_ifs with hcond
  · show margin ≤ pageHeight - margin
    decide
  · show s.y ≤ pageHeight - margin
    simp only [not_lt] at hcond
    linarith

theorem contentOK_emit {s : GenState} (k : BKind) (yv : Int) (hs : contentOK s)
    (hk : checkedKind k = true → margin ≤ yv ∧ yv ≤ pageHeight - margin)
    (hf : isFooter k = false) :
    contentOK (emitAt k yv s) := by
  refine ⟨hs.1, ?_⟩
  intro b hb
  rw [emitAt_blocks, List.mem_append] at hb
  rcases hb with hb | hb
  · exact hs.2 b hb
  · simp only [List.mem_singleton] at hb
    subst hb
    exact ⟨hk, hf⟩

theorem contentOK_emit_unchecked {s : GenState} (k : BKind) (yv : Int) (hs : contentOK s)
    (hk : checkedKind k = false) (hf : isFooter k = false) :
    contentOK (emitAt k yv s) :=
  contentOK_emit k yv hs (fun h => absurd (hk ▸ h) (by decide)) hf

theorem contentOK_setY {s : GenState} (y' : Int) (hy : margin ≤ y') (hs : contentOK s) :
    contentOK { s with y := y' } :=
  ⟨hy, hs.2⟩

theorem contentOK_addNewPage (h : Int) {s : GenState} (hs : contentOK s) :
    contentOK (addNewPageIfNeeded h s) := by
  refine ⟨addNewPageIfNeeded_y_ge h hs.1, ?_⟩
  intro b hb
  rw [addNewPageIfNeeded_blocks] at hb
  exact hs.2 b hb

theorem contentOK_addSectionTitle (t : String) {s : GenState} (hs : contentOK s) :
    contentOK (addSectionTitle t s) := by
  have h1 := contentOK_addNewPage 20 hs
  have hyge := addNewPageIfNeeded_y_ge 20 hs.1
  have hyle := addNewPageIfNeeded_y_le 20 (by norm_num) s
  have h2 := contentOK_emit (.sectionTitle t) (addNewPageIfNeeded 20 s).y h1
    (fun _ => ⟨hyge, hyle⟩) rfl
  exact contentOK_setY _ (by rw [emitAt_y]; linarith) h2

theorem contentOK_addParagraph (split : Split) (t : String) {s : GenState}
    (hs : contentOK s) : contentOK (addParagraph split t s) := by
  set lines := split t contentWidth with hl
  have hpos : (0 : Int) ≤ (lines.length : Int) * 5 + 5 := by
    have := Int.natCast_nonneg lines.length
    linarith
  have h1 := contentOK_addNewPage ((lines.length : Int) * 5 + 5) hs
  have hyge := addNewPageIfNeeded_y_ge ((lines.length : Int) * 5 + 5) hs.1
  have hyle := addNewPageIfNeeded_y_le ((lines.length : Int) * 5 + 5) hpos s
  have h2 := contentOK_emit (.paragraph lines)
    (addNewPageIfNeeded ((lines.length : Int) * 5 + 5) s).y h1 (fun _ => ⟨hyge, hyle⟩) rfl
  exact contentOK_setY _ (by rw [emitAt_y]; linarith) h2

theorem contentOK_addBulletItem (split : Split) (item : String) {s : GenState}
    (hs : contentOK s) : contentOK (addBulletItem split item s) := by
  set lines := split item (contentWidth - 10) with hl
  have hpos : (0 : Int) ≤ (lines.length : Int) * 5 + 3 := by
    have := Int.natCast_nonneg lines.length
    linarith
  have h1 := contentOK_addNewPage ((lines.length : Int) * 5 + 3) hs
  have hyge := addNewPageIfNeeded_y_ge ((lines.length : Int) * 5 + 3) hs.1
  have hyle := addNewPageIfNeeded_y_le ((lines.length : Int) * 5 + 3) hpos s
  have h2 := contentOK_emit (.bullet lines)
    (addNewPageIfNeeded ((lines.length : Int) * 5 + 3) s).y h1 (fun _ => ⟨hyge, hyle⟩) rfl
  exact contentOK_setY _ (by rw [emitAt_y]; linarith) h2

theorem contentOK_foldl_bullets (split : Split) (items : List String) :
    ∀ s : GenState, contentOK s →
      contentOK (items.foldl (fun st it => addBulletItem split it st) s) := by
  induction items with
  | nil => exact fun s hs => hs
  | cons it items ih =>
    intro s hs
    exact ih (addBulletItem split it s) (contentOK_addBulletItem split it hs)

theorem contentOK_addBulletList (split : Split) (items : List String) {s : GenState}
    (hs : contentOK s) : contentOK (addBulletList split items s) := by
  have h1 := contentOK_foldl_bullets split items s hs
  exact contentOK_setY _ (by linarith [h1.1]) h1

theorem contentOK_addKeyValue (split : Split) (label value : String) {s : GenState}
    (hs : contentOK s) : contentOK (addKeyValue split label value s) := by
  have h1 := contentOK_emit_unchecked
    (.keyValue (split (label ++ ":") 50) (split value (contentWidth - 55))) s.y hs rfl rfl
  refine contentOK_setY _ ?_ h1
  rw [emitAt_y]
  have := Int.natCast_nonneg
    (max (split (label ++ ":") 50).length (split value (contentWidth - 55)).length)
  linarith [hs.1]

theorem contentOK_setY_post (d : Int) (hd : 0 ≤ d) {s : GenState} (hs : contentOK s) :
    contentOK { s with y := s.y + d } :=
  ⟨by show margin ≤ s.y + d; have := hs.1; linarith, hs.2⟩

theorem contentOK_headerPart (genome : GenomeV) (job : JobV) {s : GenState}
    (hs : contentOK s) : contentOK (headerPart genome job s) := by
  unfold headerPart
  exact contentOK_setY_post 12 (by norm_num)
    (contentOK_emit_unchecked _ _
      (contentOK_emit_unchecked _ _
        (contentOK_setY_post 6 (by norm_num)
          (contentOK_emit_unchecked _ _
            (contentOK_emit_unchecked _ _
              (contentOK_setY_post 30 (by norm_num)
                (contentOK_emit_unchecked _ _
                  (contentOK_emit_unchecked _ _
                    (contentOK_emit_unchecked _ _
                      (contentOK_setY 55 (by decide)
                        (contentOK_emit_unchecked _ _
                          (contentOK_emit_unchecked _ _
                            (contentOK_emit_unchecked _ _ hs rfl rfl) rfl rfl) rfl rfl))
                      rfl rfl) rfl rfl) rfl rfl))
              rfl rfl) rfl rfl))
        rfl rfl) rfl rfl)

theorem contentOK_scorePart (analysis : AnalysisV) {s : GenState} (hs : contentOK s) :
    contentOK (scorePart analysis s) := by
  unfold scorePart
  split_ifs
  · exact contentOK_setY_post 25 (by norm_num)
      (contentOK_emit_unchecked _ _ (contentOK_emit_unchecked _ _ hs rfl rfl) rfl rfl)
  · exact hs

theorem contentOK_summaryPart (split : Split) (analysis : AnalysisV) {s : GenState}
    (hs : contentOK s) : contentOK (summaryPart split analysis s) := by
  unfold summaryPart
  split_ifs
  · exact contentOK_setY_post 5 (by norm_num)
      (contentOK_addParagraph split _ (contentOK_addSectionTitle "Job Summary" hs))
  · exact hs

theorem contentOK_listSection (split : Split) (title : String)
    (field : Option (List String)) {s : GenState} (hs : contentOK s) :
    contentOK (listSection split title field s) := by
  unfold listSection
  split_ifs
  · exact contentOK_addBulletList split (field.getD []) (contentOK_addSectionTitle title hs)
  · exact hs

theorem contentOK_ite (c : Prop) [Decidable c] (F : GenState → GenState)
    (hF : ∀ t, contentOK t → contentOK (F t)) {s : GenState} (hs : contentOK s) :
    contentOK (if c then F s else s) := by
  split_ifs
  · exact hF s hs
  · exact hs

theorem contentOK_trajectoryPart (split : Split) (analysis : AnalysisV) {s : GenState}
    (hs : contentOK s) : contentOK (trajectoryPart split analysis s) := by
  unfold trajectoryPart
  cases hct : analysis.careerTrajectory with
  | none => exact hs
  | some ct =>
    dsimp only
    refine contentOK_ite _
      (fun t => addKeyValue split "Role Alignment" (ct.alignmentWithRole.getD "")
        (addNewPageIfNeeded 15 t))
      (fun t ht => contentOK_addKeyValue split "Role Alignment" (ct.alignmentWithRole.getD "")
        (contentOK_addNewPage 15 ht)) ?_
    refine contentOK_ite _
      (fun t => addBulletList split (ct.growthIndicators.getD [])
        { emitAt (BKind.subheading "Growth Indicators:") (addNewPageIfNeeded 10 t).y
            (addNewPageIfNeeded 10 t) with
          y := (emitAt (BKind.subheading "Growth Indicators:") (addNewPageIfNeeded 10 t).y
            (addNewPageIfNeeded 10 t)).y + 6 })
      (fun t ht => contentOK_addBulletList split (ct.growthIndicators.getD [])
        (contentOK_setY_post 6 (by norm_num)
          (contentOK_emit_unchecked _ _ (contentOK_addNewPage 10 ht) rfl rfl))) ?_
    refine contentOK_ite _
      (fun t => addParagraph split (ct.summary.getD "") t)
      (fun t ht => contentOK_addParagraph split (ct.summary.getD "") ht) ?_
    exact contentOK_addSectionTitle _ hs

theorem contentOK_locationPart (split : Split) (analysis : AnalysisV) {s : GenState}
    (hs : contentOK s) : contentOK (locationPart split analysis s) := by
  unfold locationPart
  cases hlw : analysis.locationAndWorkStyle with
  | none => exact hs
  | some lw =>
    dsimp only
    refine contentOK_ite _
      (fun t => addBulletList split (lw.potentialConcerns.getD [])
        { emitAt (BKind.subheading "Potential Concerns:")
            (addNewPageIfNeeded 10 { t with y := t.y + 3 }).y
            (addNewPageIfNeeded 10 { t with y := t.y + 3 }) with
          y := (emitAt (BKind.subheading "Potential Concerns:")
            (addNewPageIfNeeded 10 { t with y := t.y + 3 }).y
            (addNewPageIfNeeded 10 { t with y := t.y + 3 })).y + 6 })
      (fun t ht => contentOK_addBulletList split (lw.potentialConcerns.getD [])
        (contentOK_setY_post 6 (by norm_num)
          (contentOK_emit_unchecked _ _
            (contentOK_addNewPage 10 (contentOK_setY_post 3 (by norm_num) ht)) rfl rfl))) ?_
    refine contentOK_ite _
      (fun t => addKeyValue split "Commitment" (lw.commitmentLevelMatch.getD "") t)
      (fun t ht => contentOK_addKeyValue split "Commitment" (lw.commitmentLevelMatch.getD "")
        ht) ?_
    refine contentOK_ite _
      (fun t => addKeyValue split "Remote Work" (lw.remoteWorkAlignment.getD "") t)
      (fun t ht => contentOK_addKeyValue split "Remote Work" (lw.remoteWorkAlignment.getD "")
        ht) ?_
    refine contentOK_ite _
      (fun t => addKeyValue split "Location" (lw.locationCompatibility.getD "") t)
      (fun t ht => contentOK_addKeyValue split "Location" (lw.locationCompatibility.getD "")
        ht) ?_
    exact contentOK_addSectionTitle _ hs

theorem contentOK_credibilityPart (split : Split) (analysis : AnalysisV) {s : GenState}
    (hs : contentOK s) : contentOK (credibilityPart split analysis s) := by
  unfold credibilityPart
  cases hpc : analysis.professionalCredibility with
  | none => exact hs
  | some pc =>
    dsimp only
    refine contentOK_ite _
      (fun t => addBulletList split (pc.credibilityIndicators.getD [])
        { emitAt (BKind.subheading "Credibility Indicators:")
            (addNewPageIfNeeded 10 { t with y := t.y + 3 }).y
            (addNewPageIfNeeded 10 { t with y := t.y + 3 }) with
          y := (emitAt (BKind.subheading "Credibility Indicators:")
            (addNewPageIfNeeded 10 { t with y := t.y + 3 }).y
            (addNewPageIfNeeded 10 { t with y := t.y + 3 })).y + 6 })
      (fun t ht => contentOK_addBulletList split (pc.credibilityIndicators.getD [])
        (contentOK_setY_post 6 (by norm_num)
          (contentOK_emit_unchecked _ _
            (contentOK_addNewPage 10 (contentOK_setY_post 3 (by norm_num) ht)) rfl rfl))) ?_
    refine contentOK_ite _
      (fun t => addBulletList split (pc.professionalPresence.getD [])
        { emitAt (BKind.subheading "Professional Presence:")
            (addNewPageIfNeeded 10 { t with y := t.y + 3 }).y
            (addNewPageIfNeeded 10 { t with y := t.y + 3 }) with
          y := (emitAt (BKind.subheading "Professional Presence:")
            (addNewPageIfNeeded 10 { t with y := t.y + 3 }).y
            (addNewPageIfNeeded 10 { t with y := t.y + 3 })).y + 6 })
      (fun t ht => contentOK_addBulletList split (pc.professionalPresence.getD [])
        (contentOK_setY_post 6 (by norm_num)
          (contentOK_emit_unchecked _ _
            (contentOK_addNewPage 10 (contentOK_setY_post 3 (by norm_num) ht)) rfl rfl))) ?_
    refine contentOK_ite _
      (fun t => addKeyValue split "Profile Quality" (pc.profileQuality.getD "") t)
      (fun t ht => contentOK_addKeyValue split "Profile Quality" (pc.profileQuality.getD "")
        ht) ?_
    exact contentOK_addSectionTitle _ hs

/-- The whole content pass maintains the invariant from the initial
cursor state. -/
theorem contentOK_contentPass (split : Split) (analysis : AnalysisV) (genome : GenomeV)
    (job : JobV) : contentOK (contentPass split analysis genome job) := by
  have h0 : contentOK ⟨margin, 1, []⟩ := ⟨le_refl margin, by simp⟩
  exact contentOK_credibilityPart split analysis
    (contentOK_locationPart split analysis
      (contentOK_trajectoryPart split analysis
        (contentOK_listSection split "Recommendations" analysis.recommendations
          (contentOK_listSection split "Areas for Development" analysis.areasForDevelopment
            (contentOK_listSection split "Matching Skills & Strengths"
              analysis.matchingSkillsAndStrengths
              (contentOK_summaryPart split analysis
                (contentOK_scorePart analysis
                  (contentOK_headerPart genome job h0))))))))

/-! ### Structure of the finished document -/

theorem generate_blocks (split : Split) (analysis : AnalysisV) (genome : GenomeV)
    (job : JobV) :
    (generateAnalysisPDF split analysis genome job).1.blocks
      = (contentPass split analysis genome job).blocks
        ++ footerBlocks (contentPass split analysis genome job).page := rfl

theorem generate_page (split : Split) (analysis : AnalysisV) (genome : GenomeV)
    (job : JobV) :
    (generateAnalysisPDF split analysis genome job).1.page
      = (contentPass split analysis genome job).page := rfl

theorem content_no_footer (split : Split) (analysis : AnalysisV) (genome : GenomeV)
    (job : JobV) (b : Block) (hb : b ∈ (contentPass split analysis genome job).blocks) :
    isFooter b.kind = false :=
  ((contentOK_contentPass split analysis genome job).2 b hb).2

theorem filter_footerBlocks (n : Nat) :
    (footerBlocks n).filter (fun b => isFooter b.kind) = footerBlocks n := by
  apply List.filter_eq_self.mpr
  intro b hb
  unfold footerBlocks at hb
  rw [List.mem_map] at hb
  obtain ⟨k, _, hk⟩ := hb
  rw [← hk]
  rfl

theorem filter_not_footerBlocks (n : Nat) :
    (footerBlocks n).filter (fun b => !isFooter b.kind) = [] := by
  apply List.filter_eq_nil_iff.mpr
  intro b hb
  unfold footerBlocks at hb
  rw [List.mem_map] at hb
  obtain ⟨k, _, hk⟩ := hb
  rw [← hk]
  simp [isFooter]

theorem content_filter_not_footer (split : Split) (analysis : AnalysisV) (genome : GenomeV)
    (job : JobV) :
    (contentPass split analysis genome job).blocks.filter (fun b => !isFooter b.kind)
      = (contentPass split analysis genome job).blocks :=
  List.filter_eq_self.mpr (fun b hb => by
    rw [content_no_footer split analysis genome job b hb]
    rfl)

theorem kinds_addSectionTitle (t : String) (s : GenState) :
    kindsOf (addSectionTitle t s) = kindsOf s ++ [.sectionTitle t] := by
  show ((emitAt (.sectionTitle t) (addNewPageIfNeeded 20 s).y
    (addNewPageIfNeeded 20 s)).blocks).map (·.kind) = _
  rw [emitAt_blocks, addNewPageIfNeeded_blocks, List.map_append]
  rfl

theorem kinds_addParagraph (split : Split) (t : String) (s : GenState) :
    kindsOf (addParagraph split t s) = kindsOf s ++ [.paragraph (split t contentWidth)] := by
  show ((emitAt (.paragraph (split t contentWidth))
    (addNewPageIfNeeded ((split t contentWidth).length * 5 + 5) s).y
    (addNewPageIfNeeded ((split t contentWidth).length * 5 + 5) s)).blocks).map (·.kind) = _
  rw [emitAt_blocks, addNewPageIfNeeded_blocks, List.map_append]
  rfl

theorem kinds_summaryPart (split : Split) (analysis : AnalysisV) (s : GenState)
    (ht : truthyStr analysis.jobSummary = true) :
    kindsOf (summaryPart split analysis s)
      = kindsOf s ++ [.sectionTitle "Job Summary",
          .paragraph (split (analysis.jobSummary.getD "") contentWidth)] := by
  unfold summaryPart
  rw [if_pos ht]
  show kindsOf (addParagraph split (analysis.jobSummary.getD "")
    (addSectionTitle "Job Summary" s)) = _
  rw [kinds_addParagraph, kinds_addSectionTitle, List.append_assoc]
  rfl

/-! ### Claim theorems: the PDF generator (C1, C5, C6, C9) -/

set_option maxRecDepth 4000 in
/-- Counterexample to C1 as stated: in a concrete run (seventeen
one-line recommendation bullets, then a location section whose first
value wraps to 8 lines), `addKeyValue` — which performs no
`addNewPageIfNeeded` check — draws a key/value block whose start
position exceeds the page height. -/
theorem C1_counterexample :
    ((generateAnalysisPDF wrapChars overflowAnalysis sampleGenome sampleJob).1.blocks.any
      (fun b => isKeyValue b.kind && decide (pageHeight < b.y))) = true := by
  decide

/-- C1 (amended): the three add operations that do check —
`addSectionTitle`, `addParagraph` and `addBulletList` — only ever draw
blocks starting between the top margin and `pageHeight - margin`;
`addKeyValue` is excluded (see `C1_counterexample`). -/
theorem C1_checked_blocks_within_margins (split : Split) (analysis : AnalysisV)
    (genome : GenomeV) (job : JobV) (b : Block)
    (hb : b ∈ (generateAnalysisPDF split analysis genome job).1.blocks)
    (hk : checkedKind b.kind = true) :
    margin ≤ b.y ∧ b.y ≤ pageHeight - margin := by
  rw [generate_blocks, List.mem_append] at hb
  rcases hb with hb | hb
  · exact ((contentOK_contentPass split analysis genome job).2 b hb).1 hk
  · exfalso
    unfold footerBlocks at hb
    rw [List.mem_map] at hb
    obtain ⟨k, _, hkk⟩ := hb
    rw [← hkk] at hk
    simp [checkedKind] at hk

/-- Witness for the amended C1: the "Job Summary" section title of a
concrete run starts at `y = 103`, within both margins. -/
theorem C1_checked_blocks_witness :
    margin ≤ (103 : Int) ∧ (103 : Int) ≤ pageHeight - margin :=
  C1_checked_blocks_within_margins wrapChars (analysisOnlySummary "A summary.") sampleGenome
    sampleJob ⟨.sectionTitle "Job Summary", 1, 103⟩ (by decide) (by decide)

/-- C5: the footers of the finished document are exactly one per page
`1 … total`, each reading `Page {i} of {total} • Torre Candidate Fit
Analysis`, where `total` is the page count at the end of the content
pass (the footer pass adds no pages). -/
theorem C5_footer_pass (split : Split) (analysis : AnalysisV) (genome : GenomeV)
    (job : JobV) :
    (generateAnalysisPDF split analysis genome job).1.blocks.filter
        (fun b => isFooter b.kind)
      = (List.range (contentPass split analysis genome job).page).map
          (fun k => ⟨.footer (footerText (k + 1) (contentPass split analysis genome job).page),
            k + 1, pageHeight - 10⟩) ∧
    (generateAnalysisPDF split analysis genome job).1.page
      = (contentPass split analysis genome job).page := by
  constructor
  · rw [generate_blocks, List.filter_append, filter_footerBlocks]
    have h1 : (contentPass split analysis genome job).blocks.filter
        (fun b => isFooter b.kind) = [] :=
      List.filter_eq_nil_iff.mpr (fun b hb => by
        rw [content_no_footer split analysis genome job b hb]
        decide)
    rw [h1, List.nil_append]
    rfl
  · rfl

/-- C6: with only `jobSummary` set (every other field absent), the
document's non-footer draw calls are exactly the header block, the
candidate and job identity blocks, and the job-summary section — no
other section emits anything. -/
theorem C6_summary_only_sections (split : Split) (genome : GenomeV) (job : JobV)
    (summary : String) (hsum : summary ≠ "") :
    ((generateAnalysisPDF split (analysisOnlySummary summary) genome job).1.blocks.filter
        (fun b => !isFooter b.kind)).map (·.kind)
      = [.headerBg, .headerTitle, .headerDate, .candBg,
         .candName (genome.person.name.getD "Unknown Candidate"),
         .candHeadline (genome.person.professionalHeadline.getD ""),
         .posLabel, .posValue job.objective, .compLabel,
         .compValue (job.firstOrgName.getD "Unknown"),
         .sectionTitle "Job Summary", .paragraph (split summary contentWidth)] := by
  rw [generate_blocks, List.filter_append, filter_not_footerBlocks, List.append_nil,
    content_filter_not_footer]
  have ht : truthyStr (analysisOnlySummary summary).jobSummary = true := by
    simp [analysisOnlySummary, truthyStr, hsum]
  have hcp : contentPass split (analysisOnlySummary summary) genome job
      = summaryPart split (analysisOnlySummary summary)
          (headerPart genome job ⟨margin, 1, []⟩) := rfl
  show kindsOf (contentPass split (analysisOnlySummary summary) genome job) = _
  rw [hcp, kinds_summaryPart split (analysisOnlySummary summary) _ ht]
  rfl

/-- Witness for C6 on a concrete run. -/
theorem C6_summary_only_sections_witness :
    ((generateAnalysisPDF wrapChars (analysisOnlySummary "A summary.") sampleGenome
        sampleJob).1.blocks.filter (fun b => !isFooter b.kind)).map (·.kind)
      = [.headerBg, .headerTitle, .headerDate, .candBg, .candName "Jane Doe",
         .candHeadline "Product Designer", .posLabel, .posValue "Senior Designer",
         .compLabel, .compValue "Acme", .sectionTitle "Job Summary",
         .paragraph ["A summary."]] :=
  C6_summary_only_sections wrapChars sampleGenome sampleJob "A summary." (by decide)

theorem collapseRuns_no_ws : ∀ (b : Bool) (l : List Char),
    (collapseRuns b l).all (fun c => !isWsJS c) = true := by
  intro b l
  induction l generalizing b with
  | nil => rfl
  | cons c r ih =>
    unfold collapseRuns
    split_ifs with h1 h2
    · exact ih true
    · rw [List.all_cons, ih true, Bool.and_true]
      decide
    · rw [List.all_cons, ih false, Bool.and_true]
      simp [h1]

/-- C9: the export filename is `pdfFileName`; whitespace runs are
collapsed to underscores (no whitespace survives), the objective
portion is truncated to at most 30 characters, the fixed `.pdf`
extension is appended, and on the end-to-end scenario the name is
`Candidate_Fit_Jane_Doe_Senior_Designer.pdf`, containing `Jane_Doe`
and `Senior_Designer`. -/
theorem C9_filename_shape :
    (∀ (split : Split) (analysis : AnalysisV) (genome : GenomeV) (job : JobV),
      (generateAnalysisPDF split analysis genome job).2 = pdfFileName genome job) ∧
    (∀ s : String, (collapseWs s).data.all (fun c => !isWsJS c) = true) ∧
    (∀ (genome : GenomeV) (job : JobV), ".pdf".data <:+ (pdfFileName genome job).data) ∧
    (∀ job : JobV, (takePrefix 30 (collapseWs job.objective)).length ≤ 30) ∧
    pdfFileName sampleGenome sampleJob = "Candidate_Fit_Jane_Doe_Senior_Designer.pdf" ∧
    ("Jane_Doe".data <:+: (pdfFileName sampleGenome sampleJob).data) ∧
    ("Senior_Designer".data <:+: (pdfFileName sampleGenome sampleJob).data) := by
  refine ⟨fun _ _ _ _ => rfl, fun s => collapseRuns_no_ws false s.data, ?_, ?_, rfl,
    by decide, by decide⟩
  · intro genome job
    unfold pdfFileName
    cases genome.person.name with
    | none =>
      show ".pdf".data <:+
        ("Candidate_Fit_" ++ "Unknown" ++ "_" ++ takePrefix 30 (collapseWs job.objective)).data
          ++ ".pdf".data
      exact List.suffix_append _ _
    | some n =>
      dsimp only
      by_cases hn : collapseWs n = ""
      · rw [if_pos hn]
        show ".pdf".data <:+
          ("Candidate_Fit_" ++ "Unknown" ++ "_"
            ++ takePrefix 30 (collapseWs job.objective)).data ++ ".pdf".data
        exact List.suffix_append _ _
      · rw [if_neg hn]
        show ".pdf".data <:+
          ("Candidate_Fit_" ++ collapseWs n ++ "_"
            ++ takePrefix 30 (collapseWs job.objective)).data ++ ".pdf".data
        exact List.suffix_append _ _
  · intro job
    have h1 : (takePrefix 30 (collapseWs job.objective)).length
        = ((collapseWs job.objective).data.take 30).length := rfl
    rw [h1, List.length_take]
    exact min_le_left _ _

/-! ### Claim theorems: the API route (C7) and the prompt percentage (C10) -/

/-- C7: the `POST /api/ai` handler replies 400 when an object body has
no `prompt` field, without reaching the upstream call (the boolean
component); when the upstream call throws an `Error` whose message
mentions "API key" (as the SDK does when the credential is unset) it
replies 500 with the distinguished configuration message; any other
thrown `Error` yields 500 carrying that error's message. -/
theorem C7_route_behavior :
    (∀ (ps : List (String × Json)) (envModel : Option String)
        (upstream : String → Except Thrown GenSuccess),
      getField (.obj ps) "prompt" = none →
      POST (.ok (.obj ps)) envModel upstream
        = (⟨400, some "Prompt is required", none⟩, false)) ∧
    (∀ (ps : List (String × Json)) (envModel : Option String)
        (upstream : String → Except Thrown GenSuccess) (msg : String),
      ((getField (.obj ps) "prompt").map jsTruthy).getD false = true →
      upstream (resolveModel (getField (.obj ps) "model") envModel)
        = .error (.errObj msg) →
      containsStr msg "API key" = true →
      POST (.ok (.obj ps)) envModel upstream = (⟨500, some apiKeyMissingMsg, none⟩, true)) ∧
    (∀ (ps : List (String × Json)) (envModel : Option String)
        (upstream : String → Except Thrown GenSuccess) (msg : String),
      ((getField (.obj ps) "prompt").map jsTruthy).getD false = true →
      upstream (resolveModel (getField (.obj ps) "model") envModel)
        = .error (.errObj msg) →
      containsStr msg "API key" = false →
      POST (.ok (.obj ps)) envModel upstream = (⟨500, some msg, none⟩, true)) := by
  refine ⟨?_, ?_, ?_⟩
  · intro ps envModel upstream h
    unfold POST
    dsimp only
    rw [h]
    rfl
  · intro ps envModel upstream msg hp hup hkey
    unfold POST
    dsimp only
    rw [if_neg (by rw [hp]; simp), hup]
    show ((if containsStr msg "API key" = true then
        (⟨500, some apiKeyMissingMsg, none⟩ : RouteResponse)
      else ⟨500, some msg, none⟩), true) = _
    rw [if_pos hkey]
  · intro ps envModel upstream msg hp hup hkey
    unfold POST
    dsimp only
    rw [if_neg (by rw [hp]; simp), hup]
    show ((if containsStr msg "API key" = true then
        (⟨500, some apiKeyMissingMsg, none⟩ : RouteResponse)
      else ⟨500, some msg, none⟩), true) = _
    rw [if_neg (by rw [hkey]; simp)]

/-- Witness for C7 on concrete inputs: a body without `prompt` is
rejected 400 before the upstream call; an "API key" error maps to the
configuration message; another error's message is forwarded. -/
theorem C7_route_behavior_witness :
    POST (.ok (.obj [("model", .str "m")])) none
        (fun _ => .ok ⟨"unreached", "stop"⟩)
      = (⟨400, some "Prompt is required", none⟩, false) ∧
    POST (.ok (.obj [("prompt", .str "hi")])) none
        (fun _ => .error (.errObj "Missing API key for Google provider"))
      = (⟨500, some apiKeyMissingMsg, none⟩, true) ∧
    POST (.ok (.obj [("prompt", .str "hi")])) none
        (fun _ => .error (.errObj "upstream exploded"))
      = (⟨500, some "upstream exploded", none⟩, true) :=
  ⟨C7_route_behavior.1 [("model", .str "m")] none _ rfl,
    C7_route_behavior.2.1 [("prompt", .str "hi")] none _ "Missing API key for Google provider"
      rfl rfl (by decide),
    C7_route_behavior.2.2 [("prompt", .str "hi")] none _ "upstream exploded"
      rfl rfl (by decide)⟩

/-- C10: the remote-work percentage is division-safe: it is `0` when
the jobs list is absent or empty, `Math.round((remote / total) * 100)`
otherwise, always lies in `[0, 100]`, and its decimal rendering occurs
in the generated prompt line. -/
theorem C10_remote_percent :
    remoteExperiencePercent none = 0 ∧
    remoteExperiencePercent (some []) = 0 ∧
    (∀ (g : GenomeJob) (l : List GenomeJob),
      remoteExperiencePercent (some (g :: l))
        = jsRound ((remoteJobsCount (some (g :: l)) : ℚ)
            / (totalJobsCount (some (g :: l)) : ℚ) * 100)) ∧
    (∀ jobs : Option (List GenomeJob),
      0 ≤ remoteExperiencePercent jobs ∧ remoteExperiencePercent jobs ≤ 100) ∧
    (∀ jobs : Option (List GenomeJob),
      (toString (remoteExperiencePercent jobs)).data
        <:+: (remoteExperienceLine jobs).data) := by
  refine ⟨rfl, rfl, ?_, ?_, ?_⟩
  · intro g l
    unfold remoteExperiencePercent
    rw [if_pos]
    show 0 < (g :: l).length
    simp
  · intro jobs
    unfold remoteExperiencePercent
    split_ifs with ht
    · have hr : remoteJobsCount jobs ≤ totalJobsCount jobs := by
        cases jobs with
        | none => exact le_refl 0
        | some l => exact List.length_filter_le _ l
      have htq : (0 : ℚ) < (totalJobsCount jobs : ℚ) := by exact_mod_cast ht
      have hrq : (remoteJobsCount jobs : ℚ) ≤ (totalJobsCount jobs : ℚ) := by
        exact_mod_cast hr
      have hq1 : (0 : ℚ) ≤ (remoteJobsCount jobs : ℚ) / (totalJobsCount jobs : ℚ) * 100 := by
        positivity
      have hq2 : (remoteJobsCount jobs : ℚ) / (totalJobsCount jobs : ℚ) * 100 ≤ 100 := by
        rw [div_mul_eq_mul_div, div_le_iff₀ htq]
        nlinarith
      constructor
      · exact Int.le_floor.mpr (by push_cast; linarith)
      · have hlt := Int.floor_lt.mpr (show (remoteJobsCount jobs : ℚ)
            / (totalJobsCount jobs : ℚ) * 100 + 1 / 2 < ((101 : Int) : ℚ) by push_cast; linarith)
        unfold jsRound
        omega
    · exact ⟨le_refl 0, by norm_num⟩
  · intro jobs
    exact ⟨(toString "**Remote Work Experience:** " ++ toString (remoteJobsCount jobs)
      ++ toString " out of " ++ toString (totalJobsCount jobs)
      ++ toString " positions (" : String).data, (toString "%)" : String).data, rfl⟩

end Torre
